import Mathlib

/-!
Verification development for the Handa Uncle finance-playground pipeline.

Shallow embedding of the backend layers:
  * schemas.ts            — data shapes and the Zod structural checks
  * layers/context.ts     — `computeDerivedMetrics`, `validateUserContext`
  * layers/validator.ts   — `validateSchema`, `validateBusinessRules`,
                            `validateRecommendation`, `generateValidatedRecommendation`
  * layers/classifier.ts  — `classifyQuery` (fail-open fallback)
  * layers/webSearch.ts   — `performWebSearch` cache, fallback retrieval,
                            `formatWebSearchForLLM`
  * layers/orchestrator.ts / streamingOrchestrator.ts — pipeline drivers
  * lib/stream.lib.ts + utils/event.util.ts — sequence bookkeeping

LLM and network capabilities are opaque in the source (request/response
calls that can throw); they are modelled as oracle values passed in as
arguments.  Amounts and rupee quantities are JS numbers in the source and
are modelled as rationals.
-/

namespace HandaUncle

/-! ## Character/string helpers used to model JS `String.prototype.includes`
and the case-insensitive regular expressions of the validator.  JS `\s` is
modelled for the ASCII whitespace characters. -/

def isWsChar (c : Char) : Bool :=
  c == ' ' || c == '\t' || c == '\n' || c == '\r' || c == '\x0b' || c == '\x0c'

def dropWs : List Char → List Char
  | [] => []
  | c :: cs => if isWsChar c then dropWs cs else c :: cs

/-- ASCII lower-casing of one character, as `String.prototype.toLowerCase`
acts on the ASCII range (all strings scanned by the validator and cache
are compared case-insensitively only on ASCII letters). -/
def charToLower (c : Char) : Char :=
  if 'A' ≤ c && c ≤ 'Z' then Char.ofNat (c.toNat + 32) else c

def strToLower (s : String) : String := ⟨s.data.map charToLower⟩

/-- JS `String.prototype.trim` (ASCII whitespace). -/
def strTrim (s : String) : String :=
  ⟨((s.data.dropWhile (isWsChar ·)).reverse.dropWhile (isWsChar ·)).reverse⟩

def splitOnSpaceAux : List Char → List Char → List String
  | acc, [] => [⟨acc.reverse⟩]
  | acc, c :: cs =>
    if c == ' ' then (⟨acc.reverse⟩ : String) :: splitOnSpaceAux [] cs
    else splitOnSpaceAux (c :: acc) cs

/-- JS `s.split(' ')` (split on the literal single-space separator). -/
def splitOnSpace (s : String) : List String := splitOnSpaceAux [] s.data

/-- Does `hay` start with `needle`? -/
def charsStartWith : List Char → List Char → Bool
  | [], _ => true
  | _ :: _, [] => false
  | a :: as, b :: bs => a == b && charsStartWith as bs

/-- Does `p` hold at some position (suffix) of the list? -/
def anyPos (p : List Char → Bool) : List Char → Bool
  | [] => p []
  | c :: cs => p (c :: cs) || anyPos p cs

/-- Match a sequence of literal tokens separated by `\s*` (as in the regex
`tok1\s*tok2\s*tok3`) at the start of the character list. -/
def matchSeq (first : List Char) (rest : List (List Char)) (s : List Char) : Bool :=
  charsStartWith first s &&
    match rest with
    | [] => true
    | t :: ts => matchSeq t ts (dropWs (s.drop first.length))

/-- Substring test: JS `hay.includes(needle)` (also regex `.test` for a
pattern that is a plain literal). -/
def strContainsSub (hay needle : String) : Bool :=
  anyPos (charsStartWith needle.toList) hay.toList

/-! ## Data model (schemas.ts) -/

structure MutualFundHolding where
  fund_name : String
  category : String
  invested_amount : ℚ
  current_value : ℚ
deriving DecidableEq, Repr

structure UserFinanceContext where
  monthly_income : ℚ
  monthly_expenses : ℚ
  bank_balance : ℚ
  mutual_fund_holdings : List MutualFundHolding
  risk_profile : String
  investment_horizon_years : Int
  dependents : Int
  emergency_fund_months : ℚ
deriving DecidableEq, Repr

/-- FundData of schemas.ts; the field `1Y_return` is `one_year_return` here
and `expense_ratio` is `expense_ratio_text` (Lean identifier restrictions),
both best-effort strings in the source. -/
structure FundData where
  fund_name : String
  category : String
  expense_ratio_text : String
  one_year_return : String
  three_year_return : String
  aum_crores : ℚ
  fund_house : String
deriving DecidableEq, Repr

structure WebSearchResult where
  query : String
  funds : List FundData
  search_timestamp : String
  source_urls : List String
deriving DecidableEq, Repr

structure Instrument where
  name : String
  category : String
deriving DecidableEq, Repr

structure Execution where
  enabled : Bool
  label : String
deriving DecidableEq, Repr

/-- RecommendationItem.  `category`, `action` stay strings; the enum
membership required by the Zod schema is checked by `validateSchema`,
mirroring how untrusted parsed JSON flows into `RecommendationOutputSchema.parse`. -/
structure RecommendationItem where
  instrument : Instrument
  action : String
  rationale : String
  amount : ℚ
  execution : Execution
deriving DecidableEq, Repr

structure ContextSummary where
  user_intent_summary : String
  query_type : String
deriving DecidableEq, Repr

structure Situation where
  description : String
  data_basis : String
  scenario_type : String
deriving DecidableEq, Repr

structure RecommendationAnalysis where
  risk_assessment : String
  expected_returns : String
  allocation_reasoning : String
  amount_calculation : String
deriving DecidableEq, Repr

structure RecommendationOutput where
  conversational_response : String
  context : ContextSummary
  situation : Situation
  analysis : RecommendationAnalysis
  recommendations : List RecommendationItem
deriving DecidableEq, Repr

/-- ClassificationResult: the three fields of `ClassificationResultSchema`
plus the two routing flags used by the orchestrators
(`needs_web_search`, `needs_recommendations`). -/
structure ClassificationResult where
  is_indian_finance : Bool
  confidence : ℚ
  reason : String
  needs_web_search : Bool
  needs_recommendations : Bool
deriving DecidableEq, Repr

/-! ## Derived metrics (layers/context.ts, `computeDerivedMetrics`) -/

structure AssetAllocation where
  equity_percentage : Int
  debt_percentage : Int
  liquid_percentage : Int
deriving DecidableEq, Repr

structure DerivedMetrics where
  monthly_surplus : ℚ
  total_invested : ℚ
  total_current_value : ℚ
  total_returns : ℚ
  return_percentage : ℚ
  required_emergency_fund : ℚ
  current_emergency_fund_coverage : ℚ
  emergency_fund_gap : ℚ
  asset_allocation : AssetAllocation
deriving DecidableEq, Repr

def sumBy (f : MutualFundHolding → ℚ) (l : List MutualFundHolding) : ℚ :=
  l.foldl (fun acc h => acc + f h) 0

/-- Model of `computeDerivedMetrics` of layers/context.ts.  `Math.round` is the
round-half-up `round` on rationals. -/
def computeDerivedMetrics (context : UserFinanceContext) : DerivedMetrics :=
  let monthly_surplus := context.monthly_income - context.monthly_expenses
  let total_invested := sumBy (·.invested_amount) context.mutual_fund_holdings
  let total_current_value := sumBy (·.current_value) context.mutual_fund_holdings
  let total_returns := total_current_value - total_invested
  let return_percentage : ℚ :=
    if total_invested > 0 then total_returns / total_invested * 100 else 0
  let required_emergency_fund := context.monthly_expenses * context.emergency_fund_months
  let liquid_holdings :=
    sumBy (·.current_value) (context.mutual_fund_holdings.filter (·.category == "liquid"))
  let current_emergency_fund_coverage := context.bank_balance + liquid_holdings
  let emergency_fund_gap := required_emergency_fund - current_emergency_fund_coverage
  let equity_value :=
    sumBy (·.current_value) (context.mutual_fund_holdings.filter
      (fun h => h.category == "equity" || h.category == "elss" || h.category == "index"))
  let debt_value :=
    sumBy (·.current_value) (context.mutual_fund_holdings.filter (·.category == "debt"))
  let liquid_value :=
    sumBy (·.current_value) (context.mutual_fund_holdings.filter (·.category == "liquid"))
  let total := equity_value + debt_value + liquid_value
  { monthly_surplus := monthly_surplus
    total_invested := total_invested
    total_current_value := total_current_value
    total_returns := total_returns
    return_percentage := (round (return_percentage * 100) : ℤ) / 100
    required_emergency_fund := required_emergency_fund
    current_emergency_fund_coverage := current_emergency_fund_coverage
    emergency_fund_gap := max 0 emergency_fund_gap
    asset_allocation :=
      { equity_percentage := if total > 0 then round (equity_value / total * 100) else 0
        debt_percentage := if total > 0 then round (debt_value / total * 100) else 0
        liquid_percentage := if total > 0 then round (liquid_value / total * 100) else 0 } }

/-- Model of `validateUserContext` of layers/context.ts: `UserFinanceContextSchema.parse`
succeeds exactly when all structural/range constraints hold. -/
def validateUserContext (context : UserFinanceContext) : Bool :=
  context.monthly_income > 0 &&
  context.monthly_expenses > 0 &&
  context.bank_balance ≥ 0 &&
  context.mutual_fund_holdings.all (fun h =>
    (["equity", "debt", "hybrid", "liquid", "index", "elss"].contains h.category) &&
    h.invested_amount > 0 && h.current_value > 0) &&
  (["low", "moderate", "high"].contains context.risk_profile) &&
  context.investment_horizon_years > 0 &&
  context.dependents ≥ 0 &&
  context.emergency_fund_months ≥ 0

/-! ## The validator (layers/validator.ts) -/

/-- Itemised validation errors.  The source pushes formatted strings; here
each error is a constructor carrying the data interpolated into the
corresponding message.  Recommendation indices are 1-based as in the
source messages (`Recommendation ${index + 1}: ...`). -/
inductive ValidationError where
  | schemaErr (path : String) : ValidationError
  | schemaItemErr (idx : Nat) (path : String) : ValidationError
  | netMoneyExceeded (net totalBuy totalSell surplus : ℚ) : ValidationError
  | holdNegativeAmount (idx : Nat) (amount : ℚ) : ValidationError
  | nonPositiveAmount (idx : Nat) (action : String) (amount : ℚ) : ValidationError
  | forbiddenInstrument (idx : Nat) (name : String) : ValidationError
  | invalidCategory (idx : Nat) (category : String) : ValidationError
  | executionNotDisabled (idx : Nat) : ValidationError
  | exceptionThrown (msg : String) : ValidationError
deriving DecidableEq, Repr

def allowedCategories : List String :=
  ["mutual_fund", "index_fund", "debt_fund", "liquid_fund", "elss"]

def allowedActions : List String := ["BUY", "SELL", "HOLD"]

def allowedQueryTypes : List String :=
  ["portfolio_review", "new_investment", "rebalancing", "redemption",
   "tax_planning", "emergency_fund", "goal_based", "general_advice"]

def allowedDataBases : List String := ["user_data", "hypothetical", "mixed"]

def allowedScenarioTypes : List String := ["data-backed", "hypothetical", "mixed"]

/-- Structural check for one `RecommendationItemSchema` item (schemas.ts
lines 66-82): category and action enums, `amount: z.number().positive()`,
`enabled: z.literal(false)`, the literal label string. -/
def checkItemSchema (idx : Nat) (r : RecommendationItem) : List ValidationError :=
  (if allowedCategories.contains r.instrument.category then []
   else [.schemaItemErr idx "instrument.category"]) ++
  (if allowedActions.contains r.action then [] else [.schemaItemErr idx "action"]) ++
  (if r.amount > 0 then [] else [.schemaItemErr idx "amount"]) ++
  (if r.execution.enabled = false then [] else [.schemaItemErr idx "execution.enabled"]) ++
  (if r.execution.label = "Execute (Coming Soon)" then []
   else [.schemaItemErr idx "execution.label"])

/-- Apply a per-item error generator across an indexed recommendation list
(the 1-based index mirrors the `index + 1` of the source messages). -/
def itemErrorsFrom (f : Nat → RecommendationItem → List ValidationError) :
    Nat → List RecommendationItem → List ValidationError
  | _, [] => []
  | i, r :: rs => f i r ++ itemErrorsFrom f (i + 1) rs

/-- Model of `validateSchema` of layers/validator.ts: `RecommendationOutputSchema.parse`.
String-typed free-text fields always conform; the enum, sign, and literal
constraints are the checks that can fail on a shape-correct candidate. -/
def validateSchema (d : RecommendationOutput) : List ValidationError :=
  (if allowedQueryTypes.contains d.context.query_type then []
   else [.schemaErr "context.query_type"]) ++
  (if allowedDataBases.contains d.situation.data_basis then []
   else [.schemaErr "situation.data_basis"]) ++
  (if allowedScenarioTypes.contains d.situation.scenario_type then []
   else [.schemaErr "situation.scenario_type"]) ++
  itemErrorsFrom checkItemSchema 1 d.recommendations

/-- FORBIDDEN_PATTERNS of layers/validator.ts.  Each pattern is a first
literal token plus following tokens separated by `\s*`; the alternation
`nifty\s*50\s*(call|put)` is expanded into its two alternatives, which
changes nothing observable because the source reports at most one
forbidden-pattern error per recommendation (`break` on first match). -/
def FORBIDDEN_PATTERNS : List (List Char × List (List Char)) :=
  [("stock".toList, []), ("share".toList, []), ("crypto".toList, []),
   ("bitcoin".toList, []), ("ethereum".toList, []), ("option".toList, []),
   ("future".toList, []), ("derivative".toList, []),
   ("nifty".toList, ["50".toList, "call".toList]),
   ("nifty".toList, ["50".toList, "put".toList]),
   ("f".toList, ["&".toList, "o".toList])]

def patternTest (p : List Char × List (List Char)) (s : String) : Bool :=
  anyPos (fun t => matchSeq p.1 p.2 t) s.toList

def anyForbidden (s : String) : Bool :=
  FORBIDDEN_PATTERNS.any (fun p => patternTest p s)

/-- The `totalBuy` accumulation of `validateBusinessRules` (the single source `forEach`
accumulating both totals is split into its two folds). -/
def totalBuyAmount (data : RecommendationOutput) : ℚ :=
  data.recommendations.foldl
    (fun acc r => if r.action == "BUY" then acc + r.amount else acc) 0

/-- The `totalSell` accumulation of `validateBusinessRules`. -/
def totalSellAmount (data : RecommendationOutput) : ℚ :=
  data.recommendations.foldl
    (fun acc r => if r.action == "SELL" then acc + r.amount else acc) 0

/-- Model of `validateBusinessRules` of layers/validator.ts. -/
def validateBusinessRules (data : RecommendationOutput) (userContext : UserFinanceContext)
    (needsRecommendations : Bool) : List ValidationError :=
  if !needsRecommendations || data.recommendations.isEmpty then []
  else
    let metrics := computeDerivedMetrics userContext
    let totalBuy := totalBuyAmount data
    let totalSell := totalSellAmount data
    let netNewMoneyNeeded := totalBuy - totalSell
    let rule1 :=
      if netNewMoneyNeeded > metrics.monthly_surplus then
        [ValidationError.netMoneyExceeded netNewMoneyNeeded totalBuy totalSell
          metrics.monthly_surplus]
      else []
    let rule2 :=
      itemErrorsFrom
        (fun i r =>
          if r.action == "HOLD" then
            if r.amount < 0 then [.holdNegativeAmount i r.amount] else []
          else
            if r.amount ≤ 0 then [.nonPositiveAmount i r.action r.amount] else [])
        1 data.recommendations
    let rule3 :=
      itemErrorsFrom
        (fun i r =>
          if anyForbidden (strToLower r.instrument.name) || anyForbidden (strToLower r.rationale) then
            [.forbiddenInstrument i r.instrument.name]
          else [])
        1 data.recommendations
    let rule4 :=
      itemErrorsFrom
        (fun i r =>
          if allowedCategories.contains r.instrument.category then []
          else [.invalidCategory i r.instrument.category])
        1 data.recommendations
    let rule5 :=
      itemErrorsFrom
        (fun i r => if r.execution.enabled ≠ false then [.executionNotDisabled i] else [])
        1 data.recommendations
    rule1 ++ rule2 ++ rule3 ++ rule4 ++ rule5

structure ValidationResult where
  valid : Bool
  errors : List ValidationError
  data : Option RecommendationOutput
deriving DecidableEq, Repr

/-- Model of `validateRecommendation` of layers/validator.ts: schema first,
short-circuiting, then the business rules (which return the typed data
along with the errors, as the source does). -/
def validateRecommendation (d : RecommendationOutput) (userContext : UserFinanceContext)
    (needsRecommendations : Bool) : ValidationResult :=
  if (validateSchema d).isEmpty then
    if (validateBusinessRules d userContext needsRecommendations).isEmpty then
      ⟨true, [], some d⟩
    else ⟨false, validateBusinessRules d userContext needsRecommendations, some d⟩
  else ⟨false, validateSchema d, none⟩

/-! ## Generation oracle and the repair loop
(layers/validator.ts, `generateValidatedRecommendation`)

A generation call either yields raw text plus its JSON parse (modelled
directly as the shape-correct record; enum/sign/literal violations are
handled by `validateSchema`) or throws (empty completion, malformed JSON,
or network failure) — all thrown paths land in the `catch` of the loop. -/

inductive GenOutcome where
  | ok (raw : String) (parsed : RecommendationOutput)
  | thrown (msg : String)
deriving DecidableEq, Repr

/-- Oracle for the two generation entry points: `generateRecommendation`
(attempt 0) and `retryRecommendation` (attempts 1..N), the latter receiving
the attempt number, the prior raw output, and the prior error list exactly
as the source feeds them into the retry prompt. -/
structure GenOracle where
  fresh : GenOutcome
  retry : Nat → String → List ValidationError → GenOutcome

def MAX_REPAIR_ATTEMPTS : Nat := 2

structure RepairResult where
  success : Bool
  data : Option RecommendationOutput
  attempts : Nat
  errors : List ValidationError
deriving DecidableEq, Repr

/-- The `for (let attempt = 0; attempt <= MAX_REPAIR_ATTEMPTS; attempt++)`
loop, as a fuel recursion (`fuel` = remaining iterations, kept equal to
`MAX_REPAIR_ATTEMPTS + 1 - attempt` by the entry point).  Returns the
result together with the number of generation calls performed. -/
def repairLoopAux (g : GenOracle) (userContext : UserFinanceContext) (nr : Bool) :
    Nat → Nat → String → List ValidationError → RepairResult × Nat
  | 0, _, _, lastErrors =>
    ({ success := false, data := none, attempts := MAX_REPAIR_ATTEMPTS + 1,
       errors := lastErrors }, 0)
  | fuel + 1, attempt, lastOutput, lastErrors =>
    match (if attempt == 0 then g.fresh else g.retry attempt lastOutput lastErrors) with
    | .thrown m =>
      let (r, n) := repairLoopAux g userContext nr fuel (attempt + 1) lastOutput
        [.exceptionThrown m]
      (r, n + 1)
    | .ok raw parsed =>
      let v := validateRecommendation parsed userContext nr
      if v.valid then
        ({ success := true, data := v.data, attempts := attempt + 1, errors := [] }, 1)
      else
        let (r, n) := repairLoopAux g userContext nr fuel (attempt + 1) raw v.errors
        (r, n + 1)

/-- Model of `generateValidatedRecommendation` of layers/validator.ts. -/
def generateValidatedRecommendation (g : GenOracle) (userContext : UserFinanceContext)
    (needsRecommendations : Bool) : RepairResult :=
  (repairLoopAux g userContext needsRecommendations (MAX_REPAIR_ATTEMPTS + 1) 0 "" []).1

/-- Number of generation-capability calls `generateValidatedRecommendation`
performs (instrumentation of the same run). -/
def generationCallCount (g : GenOracle) (userContext : UserFinanceContext)
    (needsRecommendations : Bool) : Nat :=
  (repairLoopAux g userContext needsRecommendations (MAX_REPAIR_ATTEMPTS + 1) 0 "" []).2

/-! ## Classifier (layers/classifier.ts) -/

/-- Outcome of the classification capability call: either a validated
`ClassificationResult` (successful completion, JSON parse and
`ClassificationResultSchema.parse` all succeeded) or a failure (throw,
empty content, unparseable or schema-invalid output). -/
inductive ClassifyOutcome where
  | ok (r : ClassificationResult)
  | failure (msg : String)
deriving DecidableEq, Repr

/-- Model of `classifyQuery` of layers/classifier.ts: the catch-all fallback returns
the lenient fail-open classification. -/
def classifyQuery : ClassifyOutcome → ClassificationResult
  | .ok r => r
  | .failure _ =>
    { is_indian_finance := true
      confidence := 1/2
      reason := "Classification error - allowing query to proceed"
      needs_web_search := true
      needs_recommendations := true }

/-! ## Web search and the grounding cache (layers/webSearch.ts) -/

structure CacheEntry where
  result : WebSearchResult
  timestamp : Nat
deriving DecidableEq, Repr

/-- The module-level `searchCache` `Map`, as an association list. -/
abbrev SearchCache := List (String × CacheEntry)

def cacheGet (c : SearchCache) (k : String) : Option CacheEntry :=
  match c with
  | [] => none
  | (k2, e) :: rest => if k2 = k then some e else cacheGet rest k

def cacheSet (c : SearchCache) (k : String) (e : CacheEntry) : SearchCache :=
  match c with
  | [] => [(k, e)]
  | (k2, e2) :: rest => if k2 = k then (k, e) :: rest else (k2, e2) :: cacheSet rest k e

def CACHE_TTL_MS : Nat := 30 * 60 * 1000

/-- Oracles for the three capability calls of the grounding layer:
the native web-search call, the knowledge-based fallback completion
(its content can be absent, handled by the or-empty-string default of the source), and the
structured-extraction completion (returning the parsed, filtered fund
list).  Each can throw. -/
structure SearchOracle where
  webSearchCall : String → Except String (String × List String)
  knowledgeFallback : String → Except String (Option String)
  extractCall : String → String → Except String (List FundData)

def fallbackSourceUrls : List String :=
  ["https://www.valueresearchonline.com", "https://www.moneycontrol.com/mutual-funds"]

/-- Model of `extractFundCategory` of layers/webSearch.ts (JS `includes` on the
lower-cased query). -/
def extractFundCategory (query : String) : String :=
  let lowerQuery := strToLower query
  if strContainsSub lowerQuery "liquid" || strContainsSub lowerQuery "emergency" then
    "liquid fund"
  else if strContainsSub lowerQuery "debt" || strContainsSub lowerQuery "fixed income" then
    "debt fund"
  else if strContainsSub lowerQuery "index" || strContainsSub lowerQuery "nifty" ||
      strContainsSub lowerQuery "sensex" then
    "index fund"
  else if strContainsSub lowerQuery "elss" || strContainsSub lowerQuery "tax" ||
      strContainsSub lowerQuery "80c" then
    "ELSS tax saving fund"
  else if strContainsSub lowerQuery "large cap" then "large cap index fund"
  else if strContainsSub lowerQuery "mid cap" then "mid cap index fund"
  else if strContainsSub lowerQuery "small cap" then "small cap index fund"
  else if strContainsSub lowerQuery "flexi" || strContainsSub lowerQuery "multi cap" then
    "Nifty 500 index fund"
  else "index fund"

/-- Model of `buildSearchQuery`; `dateStr` stands for `getCurrentDateForSearch()`
(wall-clock month-year, an environment input). -/
def buildSearchQuery (userQuery : String) (dateStr : String) : String :=
  "best " ++ extractFundCategory userQuery ++ " India " ++ dateStr ++
    " direct plan returns expense ratio AUM top performing"

/-- Model of `performOpenAIWebSearch`: on a thrown primary search the `catch` falls
back to the knowledge-based completion; a throw there propagates. -/
def performOpenAIWebSearch (o : SearchOracle) (searchQuery : String) :
    Except String (String × List String) :=
  match o.webSearchCall searchQuery with
  | .ok r => .ok r
  | .error _ =>
    match o.knowledgeFallback searchQuery with
    | .ok c => .ok (c.getD "", fallbackSourceUrls)
    | .error e => .error e

/-- Model of `extractFundData`: empty search content yields `[]` without a call; a
thrown extraction is caught and also yields `[]`. -/
def extractFundData (o : SearchOracle) (searchContent : String) (originalQuery : String) :
    List FundData :=
  if searchContent = "" then []
  else
    match o.extractCall searchContent originalQuery with
    | .ok funds => funds
    | .error _ => []

/-- The cache key: `query.toLowerCase().trim()`. -/
def normalizeQuery (query : String) : String := strTrim (strToLower query)

/-- Model of `performWebSearch` of layers/webSearch.ts.  `now` is `Date.now()` in
milliseconds; `dateStr` is the formatted current date.  Returns the result,
the updated cache, and whether a retrieval (cache miss) was performed; a
`.error` is an exception propagating to the caller. -/
def performWebSearch (o : SearchOracle) (cache : SearchCache) (now : Nat) (dateStr : String)
    (query : String) : Except String (WebSearchResult × SearchCache × Bool) :=
  let cacheKey := normalizeQuery query
  match cacheGet cache cacheKey with
  | some cached =>
    if (now : ℤ) - cached.timestamp < (CACHE_TTL_MS : ℤ) then
      .ok (cached.result, cache, false)
    else
      performWebSearchMiss o cache now dateStr query cacheKey
  | none => performWebSearchMiss o cache now dateStr query cacheKey

where
  /-- The cache-miss path of `performWebSearch`: retrieval, extraction,
  result construction, cache store. -/
  performWebSearchMiss (o : SearchOracle) (cache : SearchCache) (now : Nat)
      (dateStr : String) (query : String) (cacheKey : String) :
      Except String (WebSearchResult × SearchCache × Bool) :=
    let searchQuery := buildSearchQuery query dateStr
    match performOpenAIWebSearch o searchQuery with
    | .error e => .error e
    | .ok (content, urls) =>
      let funds := extractFundData o content query
      let result : WebSearchResult :=
        { query := searchQuery
          funds := funds
          search_timestamp := toString now
          source_urls := if urls.isEmpty then fallbackSourceUrls else urls }
      .ok (result, cacheSet cache cacheKey { result := result, timestamp := now }, true)

/-- Model of `formatWebSearchForLLM` of layers/webSearch.ts.  `dateStr` stands for
`getCurrentDateForSearch()`; `fundsJson` abstracts `JSON.stringify` of the
fund list (its exact rendering is irrelevant to every property proved
here). -/
def formatWebSearchForLLM (searchResult : WebSearchResult) (dateStr : String)
    (fundsJson : List FundData → String) : String :=
  if searchResult.funds.isEmpty then
    "<WEB_SEARCH_RESULTS>\nSearch performed: " ++ searchResult.search_timestamp ++
    "\nCurrent Date: " ++ dateStr ++
    "\n\nNo verified fund data found from web search.\nPlease recommend based on well-known index funds:\n- UTI Nifty 50 Index Fund Direct Growth\n- HDFC Index Fund Nifty 50 Plan Direct Growth\n- Nippon India Index Fund Nifty 50 Plan Direct Growth\n- Motilal Oswal Nifty 500 Index Fund Direct Growth\n\nUse approximate expense ratios (0.1-0.2% for index funds) and historical return ranges.\n</WEB_SEARCH_RESULTS>"
  else
    "<WEB_SEARCH_RESULTS>\nSearch performed: " ++ searchResult.search_timestamp ++
    "\nCurrent Date: " ++ dateStr ++
    "\nQuery: " ++ searchResult.query ++
    "\nSources: " ++ String.intercalate ", " searchResult.source_urls ++
    "\n\nVERIFIED FUND DATA (use ONLY these funds for recommendations):\n" ++
    fundsJson searchResult.funds ++
    "\n\nIMPORTANT:\n- Only recommend funds from this list\n- Do NOT fabricate fund names, returns, or expense ratios\n- If user asks about a specific fund not in this list, say data is not available\n- Prefer index funds (Nifty 50, Nifty Next 50, Nifty 500) as per Handa Uncle rules\n</WEB_SEARCH_RESULTS>"

/-! ## Non-streaming orchestrator (layers/orchestrator.ts) -/

inductive PlaygroundResponse where
  | rejection (classification : ClassificationResult) (message : String)
  | success (classification : ClassificationResult) (web_search : Option WebSearchResult)
      (recommendation : RecommendationOutput) (validation_attempts : Nat)
  | error (err : String) (layer : String)
deriving DecidableEq, Repr

def PlaygroundResponse.isRejection : PlaygroundResponse → Bool
  | .rejection _ _ => true
  | _ => false

/-- Model of `generateRejectionMessage` of layers/orchestrator.ts. -/
def generateRejectionMessage (classification : ClassificationResult) : String :=
  let baseMessage :=
    "Welcome to the Machine! I\x27m Handa Uncle, and I can only help with Indian personal finance topics — mutual funds, SIPs, and investment recommendations."
  let suggestions :=
    ["Try asking about:",
     "- Which mutual fund should I invest in?",
     "- How should I allocate my SIP?",
     "- Is my portfolio balanced?",
     "- How to save tax with ELSS?",
     "- Should I increase my emergency fund?"]
  baseMessage ++ "\n\n" ++ classification.reason ++ "\n\n" ++
    String.intercalate "\n" suggestions

/-- Capability-call counts observed during one pipeline run. -/
structure PipelineStats where
  webSearchCalls : Nat
  genCalls : Nat
deriving DecidableEq, Repr

/-- Model of `processQuery` of layers/orchestrator.ts, instrumented with the number
of grounding and generation capability invocations.  A thrown web search
(`performWebSearch = .error`) is caught by the orchestrator-level `catch`
and mapped to the generic error response. -/
def processQuery (co : ClassifyOutcome) (so : SearchOracle) (cache : SearchCache)
    (now : Nat) (dateStr : String) (g : GenOracle) (query : String)
    (userContext : UserFinanceContext) : PlaygroundResponse × PipelineStats :=
  let classification := classifyQuery co
  if classification.is_indian_finance then
    if validateUserContext userContext then
      match (if classification.needs_web_search then
              some (performWebSearch so cache now dateStr query) else none) with
      | some (.error e) => (.error e "ORCHESTRATOR", ⟨1, 0⟩)
      | some (.ok (ws, _, _)) =>
        processQueryGenerate classification (some ws) g userContext ⟨1, 0⟩
      | none => processQueryGenerate classification none g userContext ⟨0, 0⟩
    else
      (.error "Invalid user context" "LAYER-1:CONTEXT", ⟨0, 0⟩)
  else
    (.rejection classification (generateRejectionMessage classification), ⟨0, 0⟩)

where
  /-- Layer 3+4 of `processQuery`: the validated-generation step and the
  mapping of its outcome to `success`/`error`.  The `none` data case is
  unreachable on success (the repair loop only succeeds with data). -/
  processQueryGenerate (classification : ClassificationResult)
      (ws : Option WebSearchResult) (g : GenOracle) (userContext : UserFinanceContext)
      (st : PipelineStats) : PlaygroundResponse × PipelineStats :=
    let r := generateValidatedRecommendation g userContext classification.needs_recommendations
    let calls := generationCallCount g userContext classification.needs_recommendations
    if r.success then
      match r.data with
      | some d =>
        (.success classification ws d r.attempts, { st with genCalls := calls })
      | none => (.error "Unknown error" "ORCHESTRATOR", { st with genCalls := calls })
    else
      (.error "Failed to generate valid response after multiple attempts"
        "LAYER-4:VALIDATOR", { st with genCalls := calls })

/-! ## Streaming orchestrator (layers/streamingOrchestrator.ts)

The SSE side channel is modelled as the list of events written with
`sendSSE`.  The incremental `token` events emitted while the generation
stream is in flight depend on network chunk boundaries and are not
modelled (no claim refers to their content); the rejection-path word
tokens are modelled as the source computes them. -/

inductive SSEEvent where
  | progress (stage msg : String)
  | classificationEv (c : ClassificationResult)
  | token (content : String)
  | webSearchEv (fundsFound sources : Nat)
  | errorEv (resp : PlaygroundResponse)
  | done (resp : PlaygroundResponse)
deriving DecidableEq, Repr

/-- Model of `processQueryStreaming` of layers/streamingOrchestrator.ts.  The single
streaming generation call is the oracle value `gout`; the completed output
is validated with the same `validateRecommendation` used by the
non-streaming path, and a failure after streaming becomes an `error` event
(never a `done`). -/
def processQueryStreaming (co : ClassifyOutcome) (so : SearchOracle) (cache : SearchCache)
    (now : Nat) (dateStr : String) (gout : GenOutcome) (query : String)
    (userContext : UserFinanceContext) : List SSEEvent × PipelineStats :=
  let classification := classifyQuery co
  let head : List SSEEvent :=
    [.progress "classification" "Analyzing your query...", .classificationEv classification]
  if classification.is_indian_finance then
    let head2 := head ++ [SSEEvent.progress "context" "Reviewing your financial profile..."]
    if validateUserContext userContext then
      match (if classification.needs_web_search then
              some (performWebSearch so cache now dateStr query) else none) with
      | some (.error e) =>
        (head2 ++ [SSEEvent.progress "web_search" "Searching for relevant fund data...",
          SSEEvent.errorEv (.error e "ORCHESTRATOR")], ⟨1, 0⟩)
      | some (.ok (ws, _, _)) =>
        streamGenerate classification (some ws)
          (head2 ++ [SSEEvent.progress "web_search" "Searching for relevant fund data...",
            SSEEvent.webSearchEv ws.funds.length ws.source_urls.length])
          gout userContext 1
      | none =>
        streamGenerate classification none
          (head2 ++ [SSEEvent.progress "web_search_skip" "No web search needed for this query"])
          gout userContext 0
    else
      (head2 ++ [SSEEvent.errorEv (.error "Invalid user context" "LAYER-1:CONTEXT")], ⟨0, 0⟩)
  else
    let msg := generateRejectionMessage classification
    let toks := (splitOnSpace msg).map (fun w => SSEEvent.token (w ++ " "))
    (head ++ toks ++ [SSEEvent.done (.rejection classification msg)], ⟨0, 0⟩)

where
  /-- Layer 3+4 of the streaming path: one generation attempt, validation
  of the completed output, terminal event. -/
  streamGenerate (classification : ClassificationResult) (ws : Option WebSearchResult)
      (evs : List SSEEvent) (gout : GenOutcome) (userContext : UserFinanceContext)
      (wsCalls : Nat) : List SSEEvent × PipelineStats :=
    let evs2 := evs ++ [SSEEvent.progress "generating" "Crafting your personalized advice..."]
    match gout with
    | .thrown m => (evs2 ++ [SSEEvent.errorEv (.error m "ORCHESTRATOR")], ⟨wsCalls, 1⟩)
    | .ok _ parsed =>
      let v := validateRecommendation parsed userContext classification.needs_recommendations
      if v.valid then
        match v.data with
        | some d =>
          (evs2 ++ [SSEEvent.done (.success classification ws d 1)], ⟨wsCalls, 1⟩)
        | none =>
          (evs2 ++ [SSEEvent.errorEv (.error "Unknown error" "ORCHESTRATOR")], ⟨wsCalls, 1⟩)
      else
        (evs2 ++ [SSEEvent.errorEv
          (.error "Response validation failed" "LAYER-4:VALIDATOR")], ⟨wsCalls, 1⟩)

/-! ## Stream context manager and event builders
(lib/stream.lib.ts, utils/event.util.ts) -/

structure StreamContextManager where
  sequence : Nat
  messageId : String
  blockId : Option String
deriving DecidableEq, Repr

/-- The constructor `new StreamContextManager(messageId)`. -/
def newStreamContextManager (messageId : String) : StreamContextManager :=
  { sequence := 0, messageId := messageId, blockId := none }

/-- Model of `nextSequence(): number { return ++this.sequence; }` — returns the
incremented counter together with the updated manager. -/
def nextSequence (m : StreamContextManager) : Nat × StreamContextManager :=
  (m.sequence + 1, { m with sequence := m.sequence + 1 })

inductive EventPayload where
  | messageStarted (role model timestamp : String)
  | textBlockStarted (blockId : String)
  | textDelta (blockId text : String)
  | textBlockCompleted (blockId : String)
  | messageCompleted (tokenCount : Nat) (status finishReason : String)
  | messageFailed (err : String) (code : Option String)
  | conversationInfo (conversationId : String) (isNewConversation : Bool)
      (conversationTitle : String)
  | streamEnd
deriving DecidableEq, Repr

structure StreamEvent where
  eventType : String
  messageId : String
  sequence : Nat
  payload : EventPayload
deriving DecidableEq, Repr

/-- The inputs of one event-builder invocation from utils/event.util.ts
(uuid block ids and wall-clock timestamps are inputs here). -/
inductive EventBuild where
  | messageStarted (model timestamp : String)
  | textBlockStarted (blockId : String)
  | textDelta (text : String)
  | textBlockCompleted
  | messageCompleted (tokenCount : Nat) (finishReason : String)
  | messageFailed (err : String) (code : Option String)
  | conversationInfo (conversationId : String) (isNewConversation : Bool)
      (conversationTitle : String)
  | streamEnd
deriving DecidableEq, Repr

/-- The event builders of utils/event.util.ts: each reads the messageId of the
manager, consumes one sequence number via `nextSequence`, and updates the
block bookkeeping exactly as the source does. -/
def buildEvent (b : EventBuild) (ctx : StreamContextManager) :
    StreamEvent × StreamContextManager :=
  match b with
  | .messageStarted model timestamp =>
    let (seq, ctx2) := nextSequence ctx
    ({ eventType := "message.started", messageId := ctx.messageId, sequence := seq,
       payload := .messageStarted "assistant" model timestamp }, ctx2)
  | .textBlockStarted blockId =>
    let ctx1 := { ctx with blockId := some blockId }
    let (seq, ctx2) := nextSequence ctx1
    ({ eventType := "text.block.started", messageId := ctx.messageId, sequence := seq,
       payload := .textBlockStarted blockId }, ctx2)
  | .textDelta text =>
    let (seq, ctx2) := nextSequence ctx
    ({ eventType := "text.delta", messageId := ctx.messageId, sequence := seq,
       payload := .textDelta (ctx.blockId.getD "") text }, ctx2)
  | .textBlockCompleted =>
    let blockId := ctx.blockId.getD ""
    let ctx1 := { ctx with blockId := none }
    let (seq, ctx2) := nextSequence ctx1
    ({ eventType := "text.block.completed", messageId := ctx.messageId, sequence := seq,
       payload := .textBlockCompleted blockId }, ctx2)
  | .messageCompleted tokenCount finishReason =>
    let (seq, ctx2) := nextSequence ctx
    ({ eventType := "message.completed", messageId := ctx.messageId, sequence := seq,
       payload := .messageCompleted tokenCount "success" finishReason }, ctx2)
  | .messageFailed e code =>
    let (seq, ctx2) := nextSequence ctx
    ({ eventType := "message.failed", messageId := ctx.messageId, sequence := seq,
       payload := .messageFailed e code }, ctx2)
  | .conversationInfo conversationId isNew title =>
    let (seq, ctx2) := nextSequence ctx
    ({ eventType := "conversation.info", messageId := ctx.messageId, sequence := seq,
       payload := .conversationInfo conversationId isNew title }, ctx2)
  | .streamEnd =>
    let (seq, ctx2) := nextSequence ctx
    ({ eventType := "stream.end", messageId := ctx.messageId, sequence := seq,
       payload := .streamEnd }, ctx2)

/-- Run a sequence of builder invocations, collecting the built events. -/
def buildRun (ctx : StreamContextManager) : List EventBuild → List StreamEvent
  | [] => []
  | b :: bs =>
    let (e, ctx2) := buildEvent b ctx
    e :: buildRun ctx2 bs

/-- The outputs of `n` successive `nextSequence()` calls. -/
def seqRun (ctx : StreamContextManager) : Nat → List Nat
  | 0 => []
  | n + 1 =>
    let (s, ctx2) := nextSequence ctx
    s :: seqRun ctx2 n

/-! ## Concrete fixtures used by witnesses and counterexamples -/

/-- DEFAULT_USER_CONTEXT of layers/context.ts. -/
def DEFAULT_USER_CONTEXT : UserFinanceContext :=
  { monthly_income := 150000
    monthly_expenses := 80000
    bank_balance := 500000
    mutual_fund_holdings :=
      [{ fund_name := "Parag Parikh Flexi Cap Fund Direct Growth", category := "equity",
         invested_amount := 200000, current_value := 245000 },
       { fund_name := "HDFC Index Fund Nifty 50 Plan Direct Growth", category := "index",
         invested_amount := 150000, current_value := 172000 },
       { fund_name := "ICICI Prudential Liquid Fund Direct Growth", category := "liquid",
         invested_amount := 100000, current_value := 103500 },
       { fund_name := "Mirae Asset Tax Saver Fund Direct Growth", category := "elss",
         invested_amount := 150000, current_value := 168000 },
       { fund_name := "SBI Magnum Gilt Fund Direct Growth", category := "debt",
         invested_amount := 100000, current_value := 108000 }]
    risk_profile := "moderate"
    investment_horizon_years := 10
    dependents := 2
    emergency_fund_months := 6 }

/-- A context whose expenses exceed its income: both are strictly positive,
so `UserFinanceContextSchema` accepts it, yet the monthly surplus is
negative (-1000). -/
def negativeSurplusContext : UserFinanceContext :=
  { monthly_income := 1000
    monthly_expenses := 2000
    bank_balance := 0
    mutual_fund_holdings := []
    risk_profile := "low"
    investment_horizon_years := 5
    dependents := 0
    emergency_fund_months := 0 }

def sampleAnalysis : RecommendationAnalysis :=
  { risk_assessment := "Moderate capacity given horizon and dependents."
    expected_returns := "Index-like returns of 10-12 percent historically."
    allocation_reasoning := "Surplus-funded index allocation."
    amount_calculation := "Allocated from the monthly surplus." }

def sampleContextSummary : ContextSummary :=
  { user_intent_summary := "Wants a new SIP", query_type := "new_investment" }

def sampleSituation : Situation :=
  { description := "Healthy surplus and covered emergency fund."
    data_basis := "user_data", scenario_type := "data-backed" }

def execDisabled : Execution := { enabled := false, label := "Execute (Coming Soon)" }

/-- A schema- and rule-compliant candidate: one BUY of 100 rupees. -/
def validBuyCandidate : RecommendationOutput :=
  { conversational_response := "Welcome to the Machine."
    context := sampleContextSummary
    situation := sampleSituation
    analysis := sampleAnalysis
    recommendations :=
      [{ instrument := { name := "UTI Nifty 50 Index Fund Direct Growth",
                         category := "index_fund" }
         action := "BUY"
         rationale := "Low expense index fund suited to the surplus."
         amount := 100
         execution := execDisabled }] }

/-- A candidate whose recommendation list is empty (schema-conformant:
`recommendations` is an array that may be empty). -/
def emptyRecsCandidate : RecommendationOutput :=
  { conversational_response := "Welcome to the Machine."
    context := sampleContextSummary
    situation := sampleSituation
    analysis := sampleAnalysis
    recommendations := [] }

/-- A candidate holding an existing position: action HOLD with amount
exactly 0 (the case the business-rule comments declare legal). -/
def holdZeroCandidate : RecommendationOutput :=
  { conversational_response := "Welcome to the Machine."
    context := sampleContextSummary
    situation := sampleSituation
    analysis := sampleAnalysis
    recommendations :=
      [{ instrument := { name := "ICICI Prudential Liquid Fund Direct Growth",
                         category := "liquid_fund" }
         action := "HOLD"
         rationale := "Keep the emergency corpus where it is."
         amount := 0
         execution := execDisabled }] }

/-- A BUY with amount 0 (non-positive): rejected. -/
def buyZeroCandidate : RecommendationOutput :=
  { holdZeroCandidate with
    recommendations :=
      [{ instrument := { name := "UTI Nifty 50 Index Fund Direct Growth",
                         category := "index_fund" }
         action := "BUY"
         rationale := "Low expense index fund suited to the surplus."
         amount := 0
         execution := execDisabled }] }

/-- A search oracle standing for an unreachable retrieval backend. -/
def offlineSearchOracle : SearchOracle :=
  { webSearchCall := fun _ => .error "offline"
    knowledgeFallback := fun _ => .error "offline"
    extractCall := fun _ _ => .error "offline" }

/-- An in-domain classification that needs recommendations but no web
search. -/
def inDomainClassification : ClassificationResult :=
  { is_indian_finance := true
    confidence := 1
    reason := "Indian mutual fund question"
    needs_web_search := false
    needs_recommendations := true }

/-- A generation oracle whose every call yields the (schema-conformant)
empty-recommendation candidate. -/
def emptyRecsOracle : GenOracle :=
  { fresh := .ok "raw" emptyRecsCandidate
    retry := fun _ _ _ => .ok "raw" emptyRecsCandidate }

/-! ## Supporting lemmas about the validator -/

theorem itemErrorsFrom_nil_mem {f : Nat → RecommendationItem → List ValidationError}
    {i : Nat} {l : List RecommendationItem} (h : itemErrorsFrom f i l = []) :
    ∀ r ∈ l, ∃ j, f j r = [] := by
  induction l generalizing i with
  | nil => intro r hr; cases hr
  | cons a as ih =>
    rw [itemErrorsFrom] at h
    rcases List.append_eq_nil.mp h with ⟨h1, h2⟩
    intro r hr
    rcases List.mem_cons.mp hr with h3 | h3
    · exact ⟨i, h3 ▸ h1⟩
    · exact ih h2 r h3

theorem checkItemSchema_nil_amount {j : Nat} {r : RecommendationItem}
    (h : checkItemSchema j r = []) : 0 < r.amount := by
  rw [checkItemSchema] at h
  by_cases ha : r.amount > 0
  · exact ha
  · simp [ha] at h

theorem validateSchema_nil_items {d : RecommendationOutput} (h : validateSchema d = []) :
    itemErrorsFrom checkItemSchema 1 d.recommendations = [] := by
  rw [validateSchema] at h
  exact (List.append_eq_nil.mp h).2

theorem validateRecommendation_valid_parts {d : RecommendationOutput}
    {ctx : UserFinanceContext} {nr : Bool}
    (h : (validateRecommendation d ctx nr).valid = true) :
    validateSchema d = [] ∧ validateBusinessRules d ctx nr = [] := by
  unfold validateRecommendation at h
  cases h1 : (validateSchema d).isEmpty with
  | false => simp [h1] at h
  | true =>
    cases h2 : (validateBusinessRules d ctx nr).isEmpty with
    | false => simp [h1, h2] at h
    | true =>
      constructor
      · simpa using h1
      · simpa using h2

theorem validateRecommendation_invalid_errors {d : RecommendationOutput}
    {ctx : UserFinanceContext} {nr : Bool}
    (h : (validateRecommendation d ctx nr).valid = false) :
    (validateRecommendation d ctx nr).errors ≠ [] := by
  unfold validateRecommendation at h ⊢
  cases h1 : (validateSchema d).isEmpty with
  | false =>
    simp only [h1, Bool.false_eq_true, if_false]
    intro hn
    rw [hn] at h1
    simp at h1
  | true =>
    cases h2 : (validateBusinessRules d ctx nr).isEmpty with
    | false =>
      simp only [h1, h2, if_true, Bool.false_eq_true, if_false]
      intro hn
      rw [hn] at h2
      simp at h2
    | true => simp [h1, h2] at h

theorem validateRecommendation_valid_data {d : RecommendationOutput}
    {ctx : UserFinanceContext} {nr : Bool}
    (h : (validateRecommendation d ctx nr).valid = true) :
    (validateRecommendation d ctx nr).data = some d := by
  unfold validateRecommendation at h ⊢
  cases h1 : (validateSchema d).isEmpty with
  | false => simp [h1] at h
  | true =>
    cases h2 : (validateBusinessRules d ctx nr).isEmpty with
    | false => simp [h1, h2] at h
    | true => simp [h1, h2]

theorem validateBusinessRules_nil_net {d : RecommendationOutput} {ctx : UserFinanceContext}
    (hne : d.recommendations ≠ [])
    (h : validateBusinessRules d ctx true = []) :
    totalBuyAmount d - totalSellAmount d ≤ (computeDerivedMetrics ctx).monthly_surplus := by
  simp only [validateBusinessRules] at h
  rw [if_neg (by simpa using hne)] at h
  by_cases hgt : totalBuyAmount d - totalSellAmount d >
      (computeDerivedMetrics ctx).monthly_surplus
  · simp only [if_pos hgt] at h
    exact absurd (List.append_eq_nil.mp h).1 (by simp)
  · exact le_of_not_lt hgt

theorem validateBusinessRules_net_mem {d : RecommendationOutput} {ctx : UserFinanceContext}
    (hne : d.recommendations ≠ [])
    (hgt : totalBuyAmount d - totalSellAmount d >
      (computeDerivedMetrics ctx).monthly_surplus) :
    ValidationError.netMoneyExceeded (totalBuyAmount d - totalSellAmount d)
        (totalBuyAmount d) (totalSellAmount d) (computeDerivedMetrics ctx).monthly_surplus
      ∈ validateBusinessRules d ctx true := by
  simp only [validateBusinessRules]
  rw [if_neg (by simpa using hne)]
  simp only [if_pos hgt]
  simp

/-! ## Claim C2 — the net-new-money invariant -/

unseal Rat.add Rat.sub Rat.mul in
/-- Claim C2, counterexample to the claim as stated.  The context with
monthly income 1000 and monthly expenses 2000 passes `validateUserContext`
(first conjunct): `UserFinanceContextSchema` constrains each field
separately — both amounts need only be strictly positive — and imposes no
income-versus-expenses relation, so the monthly surplus may be negative
(-1000 here).  Under that context a candidate with an empty recommendation
list is accepted by the validator with recommendations required (second
conjunct: `validateBusinessRules` returns early for an empty list), yet
the net new money (0) exceeds the monthly surplus (third conjunct).  The
fourth conjunct shows this is a reachable end-to-end behaviour, not a
validator-only artifact: a full `processQuery` pipeline run — in-domain
classification, this context, a generator producing the empty-list
candidate — terminates with `type: success` delivering exactly that
artifact. -/
theorem claim2_counterexample :
    validateUserContext negativeSurplusContext = true ∧
    (validateRecommendation emptyRecsCandidate negativeSurplusContext true).valid = true ∧
    ¬(totalBuyAmount emptyRecsCandidate - totalSellAmount emptyRecsCandidate ≤
        (computeDerivedMetrics negativeSurplusContext).monthly_surplus) ∧
    processQuery (.ok inDomainClassification) offlineSearchOracle [] 0 "May 2025"
        emptyRecsOracle "which fund should I buy" negativeSurplusContext =
      (.success inDomainClassification none emptyRecsCandidate 1, ⟨0, 1⟩) := by
  refine ⟨by decide, by decide, by decide, by decide⟩

/-- Claim C2 (amended): every artifact accepted by the validator with
recommendations required **and at least one recommendation present**
satisfies the net-new-money constraint — sum of BUY amounts minus sum of
SELL amounts is at most the monthly surplus — and every BUY and SELL
amount is strictly positive; moreover a candidate with at least one
recommendation that violates the net constraint is rejected, and when it
is schema-conformant its error list contains the itemized net-money
error. -/
theorem claim2_net_money_invariant (d : RecommendationOutput) (ctx : UserFinanceContext)
    (hne : d.recommendations ≠ []) :
    ((validateRecommendation d ctx true).valid = true →
      totalBuyAmount d - totalSellAmount d ≤ (computeDerivedMetrics ctx).monthly_surplus ∧
      ∀ r ∈ d.recommendations, (r.action = "BUY" ∨ r.action = "SELL") → 0 < r.amount) ∧
    (totalBuyAmount d - totalSellAmount d > (computeDerivedMetrics ctx).monthly_surplus →
      (validateRecommendation d ctx true).valid = false ∧
      (validateSchema d = [] →
        ValidationError.netMoneyExceeded (totalBuyAmount d - totalSellAmount d)
            (totalBuyAmount d) (totalSellAmount d)
            (computeDerivedMetrics ctx).monthly_surplus
          ∈ (validateRecommendation d ctx true).errors)) := by
  constructor
  · intro hvalid
    obtain ⟨hschema, hbusiness⟩ := validateRecommendation_valid_parts hvalid
    refine ⟨validateBusinessRules_nil_net hne hbusiness, ?_⟩
    intro r hr _
    obtain ⟨j, hj⟩ := itemErrorsFrom_nil_mem (validateSchema_nil_items hschema) r hr
    exact checkItemSchema_nil_amount hj
  · intro hgt
    have hmem := validateBusinessRules_net_mem hne hgt
    have hbne : validateBusinessRules d ctx true ≠ [] := by
      intro h0
      rw [h0] at hmem
      cases hmem
    have hval : (validateRecommendation d ctx true).valid = false := by
      unfold validateRecommendation
      cases h1 : (validateSchema d).isEmpty with
      | false => simp [h1]
      | true =>
        cases h2 : (validateBusinessRules d ctx true).isEmpty with
        | false => simp [h1, h2]
        | true => exact absurd (by simpa using h2) hbne
    refine ⟨hval, ?_⟩
    intro hschema
    unfold validateRecommendation
    have h1 : (validateSchema d).isEmpty = true := by simp [hschema]
    have h2 : (validateBusinessRules d ctx true).isEmpty = false := by
      cases hb : validateBusinessRules d ctx true with
      | nil => exact absurd hb hbne
      | cons a l => simp [hb]
    simp only [h1, h2, if_true, Bool.false_eq_true, if_false]
    exact hmem

unseal Rat.add Rat.sub Rat.mul in
/-- Claim C2, witness: the accepted single-BUY candidate under the default
context satisfies the net constraint. -/
theorem claim2_witness :
    totalBuyAmount validBuyCandidate - totalSellAmount validBuyCandidate ≤
      (computeDerivedMetrics DEFAULT_USER_CONTEXT).monthly_surplus :=
  ((claim2_net_money_invariant validBuyCandidate DEFAULT_USER_CONTEXT
    (by decide)).1 (by decide)).1

/-! ## Claim C3 — HOLD with amount zero -/

unseal Rat.add Rat.sub Rat.mul in
/-- Claim C3: evaluation of the validator at the disputed inputs.  A HOLD
recommendation with amount exactly 0 is REJECTED — `RecommendationItemSchema`
requires `amount: z.number().positive()` at the structural stage, producing
exactly the amount schema error — even though the business-rule layer
itself (whose comments state "HOLD: amount >= 0 (can be 0)") returns no
error for it.  BUY with amount 0 is rejected as the claim states. -/
theorem claim3_hold_zero_rejected_by_schema :
    (validateRecommendation holdZeroCandidate DEFAULT_USER_CONTEXT true).valid = false ∧
    validateSchema holdZeroCandidate = [ValidationError.schemaItemErr 1 "amount"] ∧
    validateBusinessRules holdZeroCandidate DEFAULT_USER_CONTEXT true = [] ∧
    (validateRecommendation buyZeroCandidate DEFAULT_USER_CONTEXT true).valid = false := by
  refine ⟨by decide, by decide, by decide, by decide⟩

end HandaUncle

/-! ## Claim C1 — repair-loop boundedness -/

namespace HandaUncle

/-- The generation outcome is rejected by the flow: either the call threw
(consuming one attempt via the catch) or validation fails. -/
def GenOutcome.isInvalidFor (ctx : UserFinanceContext) (nr : Bool) : GenOutcome → Prop
  | .thrown _ => True
  | .ok _ p => (validateRecommendation p ctx nr).valid = false

/-- The generation outcome validates successfully. -/
def GenOutcome.isValidFor (ctx : UserFinanceContext) (nr : Bool) : GenOutcome → Prop
  | .thrown _ => False
  | .ok _ p => (validateRecommendation p ctx nr).valid = true

/-- Attempt `a` of the oracle is invalid whatever prior output/errors the
retry prompt receives. -/
def attemptInvalid (g : GenOracle) (ctx : UserFinanceContext) (nr : Bool) (a : Nat) : Prop :=
  if a = 0 then g.fresh.isInvalidFor ctx nr
  else ∀ s e, (g.retry a s e).isInvalidFor ctx nr

/-- Attempt `a` of the oracle validates whatever prior output/errors the
retry prompt receives. -/
def attemptValid (g : GenOracle) (ctx : UserFinanceContext) (nr : Bool) (a : Nat) : Prop :=
  if a = 0 then g.fresh.isValidFor ctx nr
  else ∀ s e, (g.retry a s e).isValidFor ctx nr

theorem repairLoopAux_all_invalid (g : GenOracle) (ctx : UserFinanceContext) (nr : Bool) :
    ∀ fuel attempt s e, fuel + attempt = MAX_REPAIR_ATTEMPTS + 1 →
    (∀ a, attempt ≤ a → a ≤ MAX_REPAIR_ATTEMPTS → attemptInvalid g ctx nr a) →
    (repairLoopAux g ctx nr fuel attempt s e).1.success = false ∧
    (repairLoopAux g ctx nr fuel attempt s e).1.attempts = MAX_REPAIR_ATTEMPTS + 1 ∧
    (repairLoopAux g ctx nr fuel attempt s e).2 = fuel ∧
    (fuel = 0 → (repairLoopAux g ctx nr fuel attempt s e).1.errors = e) ∧
    (0 < fuel → (repairLoopAux g ctx nr fuel attempt s e).1.errors ≠ []) := by
  intro fuel
  induction fuel with
  | zero =>
    intro attempt s e _ _
    refine ⟨rfl, rfl, rfl, fun _ => rfl, fun h0 => absurd h0 (by omega)⟩
  | succ n ih =>
    intro attempt s e hsum hinv
    have hattempt : attempt ≤ MAX_REPAIR_ATTEMPTS := by
      simp [MAX_REPAIR_ATTEMPTS] at hsum ⊢; omega
    have hinv0 : attemptInvalid g ctx nr attempt := hinv attempt le_rfl hattempt
    have hstep : ∀ out, out = (if attempt == 0 then g.fresh
        else g.retry attempt s e) → out.isInvalidFor ctx nr := by
      intro out hout
      by_cases h0 : attempt = 0
      · rw [hout]
        simp only [h0, beq_self_eq_true, if_true]
        simpa [attemptInvalid, h0] using hinv0
      · rw [hout]
        have : (attempt == 0) = false := by simp [h0]
        rw [this]
        simp only [Bool.false_eq_true, if_false]
        have := hinv0
        rw [attemptInvalid, if_neg h0] at this
        exact this s e
    rw [repairLoopAux]
    cases hout : (if attempt == 0 then g.fresh else g.retry attempt s e) with
    | thrown m =>
      have ihr := ih (attempt + 1) s [ValidationError.exceptionThrown m] (by omega)
        (fun a ha1 ha2 => hinv a (by omega) ha2)
      refine ⟨ihr.1, ihr.2.1, by simpa using ihr.2.2.1, by omega, fun _ => ?_⟩
      rcases Nat.eq_zero_or_pos n with hn | hn
      · rw [ihr.2.2.2.1 hn]; simp
      · exact ihr.2.2.2.2 hn
    | ok raw p =>
      have hval : (validateRecommendation p ctx nr).valid = false := by
        have := hstep _ hout.symm
        simpa [GenOutcome.isInvalidFor] using this
      dsimp only
      rw [if_neg (by simp [hval])]
      have hene : (validateRecommendation p ctx nr).errors ≠ [] :=
        validateRecommendation_invalid_errors hval
      have ihr := ih (attempt + 1) raw (validateRecommendation p ctx nr).errors (by omega)
        (fun a ha1 ha2 => hinv a (by omega) ha2)
      refine ⟨ihr.1, ihr.2.1, by simpa using ihr.2.2.1, by omega, fun _ => ?_⟩
      rcases Nat.eq_zero_or_pos n with hn | hn
      · rw [ihr.2.2.2.1 hn]; exact hene
      · exact ihr.2.2.2.2 hn

theorem repairLoopAux_first_valid (g : GenOracle) (ctx : UserFinanceContext) (nr : Bool)
    (v : Nat) (hv : v ≤ MAX_REPAIR_ATTEMPTS) :
    ∀ fuel attempt s e, fuel + attempt = MAX_REPAIR_ATTEMPTS + 1 → attempt ≤ v →
    (∀ a, attempt ≤ a → a < v → attemptInvalid g ctx nr a) →
    attemptValid g ctx nr v →
    (repairLoopAux g ctx nr fuel attempt s e).1.success = true ∧
    (repairLoopAux g ctx nr fuel attempt s e).1.attempts = v + 1 ∧
    (repairLoopAux g ctx nr fuel attempt s e).2 = v + 1 - attempt := by
  intro fuel
  induction fuel with
  | zero =>
    intro attempt s e hsum hle _ _
    exact absurd hsum (by simp [MAX_REPAIR_ATTEMPTS] at hv ⊢; omega)
  | succ n ih =>
    intro attempt s e hsum hle hinv hvalid
    rw [repairLoopAux]
    rcases Nat.lt_or_ge attempt v with hlt | hge
    · -- current attempt is invalid, recurse
      have hinv0 : attemptInvalid g ctx nr attempt := hinv attempt le_rfl hlt
      cases hout : (if attempt == 0 then g.fresh else g.retry attempt s e) with
      | thrown m =>
        have ihr := ih (attempt + 1) s [ValidationError.exceptionThrown m] (by omega)
          (by omega) (fun a ha1 ha2 => hinv a (by omega) ha2) hvalid
        exact ⟨ihr.1, ihr.2.1, by simp only [ihr.2.2]; omega⟩
      | ok raw p =>
        have hval : (validateRecommendation p ctx nr).valid = false := by
          by_cases h0 : attempt = 0
          · have := hinv0
            rw [attemptInvalid, if_pos h0] at this
            rw [h0] at hout
            simp only [beq_self_eq_true, if_true] at hout
            rw [hout] at this
            simpa [GenOutcome.isInvalidFor] using this
          · have := hinv0
            rw [attemptInvalid, if_neg h0] at this
            have h2 : (attempt == 0) = false := by simp [h0]
            rw [h2] at hout
            simp only [Bool.false_eq_true, if_false] at hout
            have := this s e
            rw [hout] at this
            simpa [GenOutcome.isInvalidFor] using this
        dsimp only
        rw [if_neg (by simp [hval])]
        have ihr := ih (attempt + 1) raw (validateRecommendation p ctx nr).errors (by omega)
          (by omega) (fun a ha1 ha2 => hinv a (by omega) ha2) hvalid
        exact ⟨ihr.1, ihr.2.1, by simp only [ihr.2.2]; omega⟩
    · -- attempt = v: this attempt validates
      have heq : attempt = v := le_antisymm hle hge
      cases hout : (if attempt == 0 then g.fresh else g.retry attempt s e) with
      | thrown m =>
        exfalso
        by_cases h0 : attempt = 0
        · have := hvalid
          rw [attemptValid, if_pos (heq ▸ h0)] at this
          rw [h0] at hout
          simp only [beq_self_eq_true, if_true] at hout
          rw [hout] at this
          simp [GenOutcome.isValidFor] at this
        · have := hvalid
          rw [attemptValid, if_neg (heq ▸ h0)] at this
          have h2 : (attempt == 0) = false := by simp [h0]
          rw [h2] at hout
          simp only [Bool.false_eq_true, if_false] at hout
          have := this s e
          rw [heq] at hout
          rw [hout] at this
          simp [GenOutcome.isValidFor] at this
      | ok raw p =>
        have hval : (validateRecommendation p ctx nr).valid = true := by
          by_cases h0 : attempt = 0
          · have := hvalid
            rw [attemptValid, if_pos (heq ▸ h0)] at this
            rw [h0] at hout
            simp only [beq_self_eq_true, if_true] at hout
            rw [hout] at this
            simpa [GenOutcome.isValidFor] using this
          · have := hvalid
            rw [attemptValid, if_neg (heq ▸ h0)] at this
            have h2 : (attempt == 0) = false := by simp [h0]
            rw [h2] at hout
            simp only [Bool.false_eq_true, if_false] at hout
            have := this s e
            rw [heq] at hout
            rw [hout] at this
            simpa [GenOutcome.isValidFor] using this
        dsimp only
        rw [if_pos (by simp [hval])]
        refine ⟨rfl, by simp [heq], by simp; omega⟩

end HandaUncle

namespace HandaUncle

/-- Claim C1: the generate-validate repair loop is bounded by 3 total
generation attempts.  (a) For any oracle whose candidates are always
invalid (validation failure or thrown call), `generateValidatedRecommendation`
performs exactly 3 generation calls (one fresh plus two repairs) and
returns `success = false` with the last error set (a non-empty error
list).  (b) If the candidate first validates on attempt `k` (1 ≤ k ≤ 3),
exactly `k` generation calls occur and the returned `attempts` field
equals `k`. -/
theorem claim1_repair_boundedness (g : GenOracle) (ctx : UserFinanceContext) (nr : Bool) :
    ((∀ a, a ≤ MAX_REPAIR_ATTEMPTS → attemptInvalid g ctx nr a) →
      (generateValidatedRecommendation g ctx nr).success = false ∧
      generationCallCount g ctx nr = 3 ∧
      (generateValidatedRecommendation g ctx nr).attempts = 3 ∧
      (generateValidatedRecommendation g ctx nr).errors ≠ []) ∧
    (∀ k, 1 ≤ k → k ≤ 3 →
      (∀ a, a < k - 1 → attemptInvalid g ctx nr a) →
      attemptValid g ctx nr (k - 1) →
      (generateValidatedRecommendation g ctx nr).success = true ∧
      generationCallCount g ctx nr = k ∧
      (generateValidatedRecommendation g ctx nr).attempts = k) := by
  constructor
  · intro hinv
    have h := repairLoopAux_all_invalid g ctx nr (MAX_REPAIR_ATTEMPTS + 1) 0 "" []
      (by simp) (fun a _ ha2 => hinv a ha2)
    exact ⟨h.1, h.2.2.1, h.2.1, h.2.2.2.2 (by simp [MAX_REPAIR_ATTEMPTS])⟩
  · intro k hk1 hk3 hinv hvalid
    have h := repairLoopAux_first_valid g ctx nr (k - 1)
      (by simp only [MAX_REPAIR_ATTEMPTS]; omega)
      (MAX_REPAIR_ATTEMPTS + 1) 0 "" [] (by simp) (by omega)
      (fun a _ ha => hinv a ha) hvalid
    refine ⟨h.1, ?_, ?_⟩
    · show (repairLoopAux g ctx nr (MAX_REPAIR_ATTEMPTS + 1) 0 "" []).2 = k
      rw [h.2.2]
      omega
    · show (repairLoopAux g ctx nr (MAX_REPAIR_ATTEMPTS + 1) 0 "" []).1.attempts = k
      rw [h.2.1]
      omega

/-- An oracle whose every generation call throws. -/
def alwaysThrowOracle : GenOracle :=
  { fresh := .thrown "boom", retry := fun _ _ _ => .thrown "boom" }

/-- An oracle whose fresh call throws and whose first repair produces the
valid single-BUY candidate. -/
def secondTryOracle : GenOracle :=
  { fresh := .thrown "boom", retry := fun _ _ _ => .ok "raw" validBuyCandidate }

unseal Rat.add Rat.sub Rat.mul in
/-- Claim C1 witness: an always-throwing oracle exhausts exactly 3 calls
and fails; an oracle valid on its first repair succeeds with 2 calls and
`attempts = 2`. -/
theorem claim1_witness :
    (generateValidatedRecommendation alwaysThrowOracle DEFAULT_USER_CONTEXT true).success
        = false ∧
    generationCallCount alwaysThrowOracle DEFAULT_USER_CONTEXT true = 3 ∧
    (generateValidatedRecommendation secondTryOracle DEFAULT_USER_CONTEXT true).success
        = true ∧
    generationCallCount secondTryOracle DEFAULT_USER_CONTEXT true = 2 ∧
    (generateValidatedRecommendation secondTryOracle DEFAULT_USER_CONTEXT true).attempts
        = 2 := by
  have h1 := (claim1_repair_boundedness alwaysThrowOracle DEFAULT_USER_CONTEXT true).1
    (fun a _ => by
      by_cases h : a = 0 <;>
        simp [attemptInvalid, h, GenOutcome.isInvalidFor, alwaysThrowOracle])
  have h2 := (claim1_repair_boundedness secondTryOracle DEFAULT_USER_CONTEXT true).2 2
    (by omega) (by omega)
    (fun a ha => by
      have ha0 : a = 0 := by omega
      simp [attemptInvalid, ha0, GenOutcome.isInvalidFor, secondTryOracle])
    (by
      rw [attemptValid, if_neg (by simp)]
      intro s e
      show (validateRecommendation validBuyCandidate DEFAULT_USER_CONTEXT true).valid = true
      decide)
  exact ⟨h1.1, h1.2.1, h2.1, h2.2.1, h2.2.2⟩

end HandaUncle

namespace HandaUncle

/-! ## Claims C4 and C7 — the classification gate -/

/-- Claim C4: when classification returns `is_indian_finance = false`, the
non-streaming orchestrator returns the rejection response carrying the
classification and the rejection message with zero grounding and zero
generation calls, and the streaming orchestrator likewise performs no
grounding or generation call and delivers a `done` event carrying the
rejection response. -/
theorem claim4_gate_precedence (co : ClassifyOutcome) (so : SearchOracle)
    (cache : SearchCache) (now : Nat) (dateStr : String) (g : GenOracle)
    (gout : GenOutcome) (query : String) (ctx : UserFinanceContext)
    (h : (classifyQuery co).is_indian_finance = false) :
    processQuery co so cache now dateStr g query ctx =
      (.rejection (classifyQuery co) (generateRejectionMessage (classifyQuery co)),
        ⟨0, 0⟩) ∧
    (processQueryStreaming co so cache now dateStr gout query ctx).2 = ⟨0, 0⟩ ∧
    SSEEvent.done (.rejection (classifyQuery co)
        (generateRejectionMessage (classifyQuery co)))
      ∈ (processQueryStreaming co so cache now dateStr gout query ctx).1 := by
  refine ⟨?_, ?_, ?_⟩
  · simp [processQuery, h]
  · simp [processQueryStreaming, h]
  · simp [processQueryStreaming, h, List.mem_append]

/-- An out-of-domain classification as the classifier would return it for
a weather query. -/
def weatherClassification : ClassificationResult :=
  { is_indian_finance := false
    confidence := 9/10
    reason := "Query is about the weather, not Indian personal finance."
    needs_web_search := false
    needs_recommendations := false }

/-- Claim C4 witness: a concrete out-of-domain run returns the rejection
pair with zero capability calls. -/
theorem claim4_witness :
    processQuery (.ok weatherClassification) offlineSearchOracle [] 0 "May 2025"
        alwaysThrowOracle "what is the weather" DEFAULT_USER_CONTEXT =
      (.rejection (classifyQuery (.ok weatherClassification))
        (generateRejectionMessage (classifyQuery (.ok weatherClassification))),
        ⟨0, 0⟩) :=
  (claim4_gate_precedence (.ok weatherClassification) offlineSearchOracle [] 0 "May 2025"
    alwaysThrowOracle (.thrown "boom") "what is the weather" DEFAULT_USER_CONTEXT rfl).1

/-- Claim C7: when the classification capability call fails (throw, empty
or unparseable output), `classifyQuery` does not throw: it fails open with
`is_indian_finance = true`, the low confidence 0.5, and a reason noting
the classification failure — and the pipeline then never rejects the
query at the gate. -/
theorem claim7_classifier_fails_open (msg : String) (so : SearchOracle)
    (cache : SearchCache) (now : Nat) (dateStr : String) (g : GenOracle)
    (query : String) (ctx : UserFinanceContext) :
    (classifyQuery (.failure msg)).is_indian_finance = true ∧
    (classifyQuery (.failure msg)).confidence = 1/2 ∧
    (classifyQuery (.failure msg)).reason =
      "Classification error - allowing query to proceed" ∧
    (processQuery (.failure msg) so cache now dateStr g query ctx).1.isRejection
      = false := by
  refine ⟨rfl, rfl, rfl, ?_⟩
  simp only [processQuery, classifyQuery, if_true]
  split
  · split
    · simp [PlaygroundResponse.isRejection]
    · simp only [processQuery.processQueryGenerate]
      split
      · split <;> simp [PlaygroundResponse.isRejection]
      · simp [PlaygroundResponse.isRejection]
    · simp only [processQuery.processQueryGenerate]
      split
      · split <;> simp [PlaygroundResponse.isRejection]
      · simp [PlaygroundResponse.isRejection]
  · simp [PlaygroundResponse.isRejection]

end HandaUncle

namespace HandaUncle

/-! ## Claim C5 — grounding-cache idempotence -/

theorem cacheGet_cacheSet_self (c : SearchCache) (k : String) (e : CacheEntry) :
    cacheGet (cacheSet c k e) k = some e := by
  induction c with
  | nil => simp [cacheSet, cacheGet]
  | cons hd t ih =>
    obtain ⟨k2, e2⟩ := hd
    by_cases hk : k2 = k
    · simp [cacheSet, cacheGet, hk]
    · simp [cacheSet, cacheGet, hk, ih]

theorem cacheSet_preserves (c : SearchCache) (k : String) (e : CacheEntry) (k2 : String)
    (h : cacheGet c k2 ≠ none) : cacheGet (cacheSet c k e) k2 ≠ none := by
  induction c with
  | nil => simp [cacheGet] at h
  | cons hd t ih =>
    obtain ⟨k3, e3⟩ := hd
    by_cases h3 : k3 = k
    · rw [cacheSet, if_pos h3]
      by_cases hk2 : k = k2
      · simp [cacheGet, hk2]
      · rw [cacheGet, if_neg hk2]
        rw [cacheGet, if_neg (h3 ▸ hk2)] at h
        exact h
    · rw [cacheSet, if_neg h3]
      by_cases hk2 : k3 = k2
      · simp [cacheGet, hk2]
      · rw [cacheGet, if_neg hk2]
        rw [cacheGet, if_neg hk2] at h
        exact ih h

/-- Claim C5: grounding is idempotent within the TTL window.  If a first
call performed retrieval (cache miss, third component `true`) at time
`t1`, then a second call — even against a different/unavailable oracle —
for a query with the same normalized cache key, within the 30-minute TTL,
returns the identical stored `WebSearchResult`, leaves the cache
untouched, and performs no retrieval or extraction call (third component
`false`); moreover the first call evicts nothing: every key present
before it is still present after. -/
theorem claim5_cache_idempotent (o o2 : SearchOracle) (cache : SearchCache)
    (t1 t2 : Nat) (d1 d2 q1 q2 : String) (r1 : WebSearchResult) (c1 : SearchCache)
    (hq : normalizeQuery q1 = normalizeQuery q2) (_h12 : t1 ≤ t2)
    (hwin : t2 - t1 < CACHE_TTL_MS)
    (h1 : performWebSearch o cache t1 d1 q1 = .ok (r1, c1, true)) :
    performWebSearch o2 c1 t2 d2 q2 = .ok (r1, c1, false) ∧
    (∀ k, cacheGet cache k ≠ none → cacheGet c1 k ≠ none) := by
  rw [performWebSearch] at h1
  have main : ∀ (hmiss : performWebSearch.performWebSearchMiss o cache t1 d1 q1
      (normalizeQuery q1) = .ok (r1, c1, true)),
      performWebSearch o2 c1 t2 d2 q2 = .ok (r1, c1, false) ∧
      (∀ k, cacheGet cache k ≠ none → cacheGet c1 k ≠ none) := by
    intro hmiss
    rw [performWebSearch.performWebSearchMiss] at hmiss
    cases hoai : performOpenAIWebSearch o (buildSearchQuery q1 d1) with
    | error e => rw [hoai] at hmiss; cases hmiss
    | ok cu =>
      obtain ⟨content, urls⟩ := cu
      rw [hoai] at hmiss
      simp only [Except.ok.injEq, Prod.mk.injEq] at hmiss
      obtain ⟨hr, hc, -⟩ := hmiss
      constructor
      · rw [performWebSearch, ← hq, ← hc, cacheGet_cacheSet_self]
        dsimp only
        rw [if_pos (by simp only [CACHE_TTL_MS] at hwin ⊢; omega)]
        rw [hr]
      · intro k hk
        rw [← hc]
        exact cacheSet_preserves cache (normalizeQuery q1) _ k hk
  cases hget : cacheGet cache (normalizeQuery q1) with
  | some cached =>
    rw [hget] at h1
    dsimp only at h1
    by_cases hfresh : (t1 : ℤ) - (cached.timestamp : ℤ) < (CACHE_TTL_MS : ℤ)
    · rw [if_pos hfresh] at h1
      simp at h1
    · rw [if_neg hfresh] at h1
      exact main h1
  | none =>
    rw [hget] at h1
    exact main h1

/-- A search oracle whose retrieval succeeds with fixed content and one
source URL, and whose extraction returns no verified funds. -/
def probeSearchOracle : SearchOracle :=
  { webSearchCall := fun _ => .ok ("fund data text", ["https://example.com/funds"])
    knowledgeFallback := fun _ => .ok (some "knowledge")
    extractCall := fun _ _ => .ok [] }

/-- The result stored by `probeSearchOracle` for the query "NIFTY Fund" at
time 0 with date string "May 2025". -/
def probeResult1 : WebSearchResult :=
  { query :=
      "best index fund India May 2025 direct plan returns expense ratio AUM top performing"
    funds := []
    search_timestamp := "0"
    source_urls := ["https://example.com/funds"] }

def probeCache1 : SearchCache :=
  [("nifty fund", { result := probeResult1, timestamp := 0 })]

/-- Claim C5 witness: after a concrete miss at time 0 for "NIFTY Fund", a
call at time 1000 ms for "Nifty FUND " (same normalized key) against an
offline oracle still returns the stored result without retrieval. -/
theorem claim5_witness :
    performWebSearch offlineSearchOracle probeCache1 1000 "June 2025" "Nifty FUND " =
      .ok (probeResult1, probeCache1, false) :=
  (claim5_cache_idempotent probeSearchOracle offlineSearchOracle [] 0 1000 "May 2025"
    "June 2025" "NIFTY Fund" "Nifty FUND " probeResult1 probeCache1 (by decide)
    (by decide) (by decide) (by rfl)).1

end HandaUncle

namespace HandaUncle

/-! ## Claim C8 — retrieval failure is absorbed, empty grounding is flagged -/

theorem anyPos_append_right (p : List Char → Bool) (l1 l2 : List Char)
    (h : anyPos p l2 = true) : anyPos p (l1 ++ l2) = true := by
  induction l1 with
  | nil => simpa using h
  | cons c cs ih => simp [anyPos, ih]

theorem strContainsSub_append_right (a b n : String)
    (h : strContainsSub b n = true) : strContainsSub (a ++ b) n = true := by
  obtain ⟨la⟩ := a
  obtain ⟨lb⟩ := b
  rw [strContainsSub] at h ⊢
  exact anyPos_append_right _ la lb h

set_option maxRecDepth 8192 in
/-- Claim C8: a thrown web-search capability call is absorbed —
`performOpenAIWebSearch` falls back to the knowledge-based completion and
returns its content with the hardcoded source URLs, so `performWebSearch`
still returns a `WebSearchResult` (no error reaches the caller); and for
any result with an empty instrument list, the text fed to the Generator
contains the explicit fallback notice naming the hardcoded list of
well-known low-cost index funds. -/
theorem claim8_retrieval_failure_recovered (o : SearchOracle) (cache : SearchCache)
    (now : Nat) (dateStr query e : String) (c : Option String)
    (hp : o.webSearchCall (buildSearchQuery query dateStr) = .error e)
    (hf : o.knowledgeFallback (buildSearchQuery query dateStr) = .ok c) :
    performOpenAIWebSearch o (buildSearchQuery query dateStr) =
      .ok (c.getD "", fallbackSourceUrls) ∧
    (∃ r c2 b, performWebSearch o cache now dateStr query = .ok (r, c2, b)) ∧
    (∀ (r : WebSearchResult) (fundsJson : List FundData → String), r.funds = [] →
      strContainsSub (formatWebSearchForLLM r dateStr fundsJson)
        "No verified fund data found from web search." = true ∧
      strContainsSub (formatWebSearchForLLM r dateStr fundsJson)
        "UTI Nifty 50 Index Fund Direct Growth" = true ∧
      strContainsSub (formatWebSearchForLLM r dateStr fundsJson)
        "HDFC Index Fund Nifty 50 Plan Direct Growth" = true ∧
      strContainsSub (formatWebSearchForLLM r dateStr fundsJson)
        "Nippon India Index Fund Nifty 50 Plan Direct Growth" = true ∧
      strContainsSub (formatWebSearchForLLM r dateStr fundsJson)
        "Motilal Oswal Nifty 500 Index Fund Direct Growth" = true) := by
  have h1 : performOpenAIWebSearch o (buildSearchQuery query dateStr) =
      .ok (c.getD "", fallbackSourceUrls) := by
    rw [performOpenAIWebSearch, hp, hf]
  refine ⟨h1, ?_, ?_⟩
  · have hmiss : ∃ r c2, performWebSearch.performWebSearchMiss o cache now dateStr query
        (normalizeQuery query) = .ok (r, c2, true) := by
      rw [performWebSearch.performWebSearchMiss, h1]
      exact ⟨_, _, rfl⟩
    rw [performWebSearch]
    cases hget : cacheGet cache (normalizeQuery query) with
    | some cached =>
      dsimp only
      by_cases hfresh : (now : ℤ) - (cached.timestamp : ℤ) < (CACHE_TTL_MS : ℤ)
      · rw [if_pos hfresh]
        exact ⟨_, _, _, rfl⟩
      · rw [if_neg hfresh]
        obtain ⟨r, c2, hm⟩ := hmiss
        exact ⟨r, c2, true, hm⟩
    | none =>
      obtain ⟨r, c2, hm⟩ := hmiss
      exact ⟨r, c2, true, hm⟩
  · intro r fundsJson hfunds
    rw [formatWebSearchForLLM, if_pos (by simp [hfunds])]
    refine ⟨?_, ?_, ?_, ?_, ?_⟩ <;>
      · apply strContainsSub_append_right
        decide

/-- A search oracle whose native web search throws but whose
knowledge-based completion succeeds. -/
def degradedSearchOracle : SearchOracle :=
  { webSearchCall := fun _ => .error "search capability down"
    knowledgeFallback := fun _ => .ok (some "knowledge-based fund data")
    extractCall := fun _ _ => .ok [] }

/-- Claim C8 witness: a concrete failed retrieval falls back and returns
the knowledge-based content with the fixed source URLs. -/
theorem claim8_witness :
    performOpenAIWebSearch degradedSearchOracle
        (buildSearchQuery "index fund sip" "May 2025") =
      .ok ("knowledge-based fund data", fallbackSourceUrls) :=
  (claim8_retrieval_failure_recovered degradedSearchOracle [] 0 "May 2025"
    "index fund sip" "search capability down" (some "knowledge-based fund data")
    rfl rfl).1

end HandaUncle

namespace HandaUncle

/-! ## Claim C6 — stream sequence numbers -/

theorem buildEvent_fields (b : EventBuild) (m : StreamContextManager) :
    (buildEvent b m).1.messageId = m.messageId ∧
    (buildEvent b m).1.sequence = m.sequence + 1 ∧
    (buildEvent b m).2.sequence = m.sequence + 1 ∧
    (buildEvent b m).2.messageId = m.messageId := by
  cases b <;> simp [buildEvent, nextSequence]

theorem seqRun_eq (n : Nat) : ∀ (m : StreamContextManager),
    seqRun m n = (List.range n).map (fun i => m.sequence + 1 + i) := by
  induction n with
  | zero => intro m; simp [seqRun]
  | succ k ih =>
    intro m
    rw [seqRun]
    dsimp only [nextSequence]
    rw [ih]
    rw [List.range_succ_eq_map]
    simp only [List.map_cons, List.map_map]
    congr 1
    apply List.map_congr_left
    intro i _
    simp only [Function.comp_apply]
    omega

theorem buildRun_fields (bs : List EventBuild) : ∀ (m : StreamContextManager),
    (buildRun m bs).map (·.sequence) =
      (List.range bs.length).map (fun i => m.sequence + 1 + i) ∧
    ∀ ev ∈ buildRun m bs, ev.messageId = m.messageId := by
  induction bs with
  | nil => intro m; simp [buildRun]
  | cons b rest ih =>
    intro m
    rw [buildRun]
    dsimp only
    obtain ⟨h1, h2, h3, h4⟩ := buildEvent_fields b m
    obtain ⟨ihs, ihm⟩ := ih (buildEvent b m).2
    constructor
    · simp only [List.map_cons, h2, ihs, h3, List.length_cons,
        List.range_succ_eq_map, List.map_map]
      congr 1
      apply List.map_congr_left
      intro i _
      simp only [Function.comp_apply]
      omega
    · intro ev hev
      rcases List.mem_cons.mp hev with h | h
      · rw [h, h1]
      · rw [ihm ev h, h4]

/-- Claim C6: (a) successive `nextSequence()` calls on one fresh
`StreamContextManager` return the gap-free run 1, 2, ..., n; (b) every
event builder reads the messageId of the manager and consumes exactly one
sequence number (the sequence of the built event is the prior counter
plus one, and the counter of the manager advances by exactly one); (c) any run
of builder invocations from a fresh manager therefore yields events whose
sequence numbers are exactly 1, ..., n and which all carry the messageId of the
manager. -/
theorem claim6_sequence_gap_free :
    (∀ (mid : String) (n : Nat),
      seqRun (newStreamContextManager mid) n = (List.range n).map (fun i => i + 1)) ∧
    (∀ (b : EventBuild) (m : StreamContextManager),
      (buildEvent b m).1.messageId = m.messageId ∧
      (buildEvent b m).1.sequence = m.sequence + 1 ∧
      (buildEvent b m).2.sequence = m.sequence + 1) ∧
    (∀ (mid : String) (bs : List EventBuild),
      (buildRun (newStreamContextManager mid) bs).map (·.sequence) =
        (List.range bs.length).map (fun i => i + 1) ∧
      ∀ ev ∈ buildRun (newStreamContextManager mid) bs, ev.messageId = mid) := by
  refine ⟨?_, ?_, ?_⟩
  · intro mid n
    rw [seqRun_eq]
    apply List.map_congr_left
    intro i _
    simp [newStreamContextManager]
    omega
  · intro b m
    obtain ⟨h1, h2, h3, _⟩ := buildEvent_fields b m
    exact ⟨h1, h2, h3⟩
  · intro mid bs
    obtain ⟨hs, hm⟩ := buildRun_fields bs (newStreamContextManager mid)
    constructor
    · rw [hs]
      apply List.map_congr_left
      intro i _
      simp [newStreamContextManager]
      omega
    · intro ev hev
      rw [hm ev hev]
      rfl

/-- Claim C6 witness: the single event built by a concrete run carries the
messageId of the manager. -/
theorem claim6_witness :
    (buildEvent EventBuild.streamEnd (newStreamContextManager "msg-1")).1.messageId
      = "msg-1" :=
  (claim6_sequence_gap_free.2.2 "msg-1" [EventBuild.streamEnd]).2
    (buildEvent EventBuild.streamEnd (newStreamContextManager "msg-1")).1 (by decide)

end HandaUncle

namespace HandaUncle

/-! ## Streaming-path helpers (claims C9, C10) -/

theorem streamGenerate_stats (classification : ClassificationResult)
    (ws : Option WebSearchResult) (evs0 : List SSEEvent) (gout : GenOutcome)
    (ctx : UserFinanceContext) (wsCalls : Nat) :
    (processQueryStreaming.streamGenerate classification ws evs0 gout ctx wsCalls).2 =
      ⟨wsCalls, 1⟩ := by
  rw [processQueryStreaming.streamGenerate.eq_def]
  cases gout with
  | thrown m => rfl
  | ok raw p =>
    dsimp only
    split
    · split <;> rfl
    · rfl

theorem streamGenerate_invalid (classification : ClassificationResult)
    (ws : Option WebSearchResult) (evs0 : List SSEEvent) (raw : String)
    (p : RecommendationOutput) (ctx : UserFinanceContext) (wsCalls : Nat)
    (hval : (validateRecommendation p ctx classification.needs_recommendations).valid
      = false) :
    (processQueryStreaming.streamGenerate classification ws evs0 (.ok raw p) ctx
        wsCalls).1 =
      evs0 ++ [SSEEvent.progress "generating" "Crafting your personalized advice...",
        SSEEvent.errorEv (.error "Response validation failed" "LAYER-4:VALIDATOR")] := by
  rw [processQueryStreaming.streamGenerate]
  rw [if_neg (by simp [hval])]
  simp

theorem streamGenerate_done_success (classification : ClassificationResult)
    (ws : Option WebSearchResult) (evs0 : List SSEEvent) (gout : GenOutcome)
    (ctx : UserFinanceContext) (wsCalls : Nat)
    (hclean : ∀ r, SSEEvent.done r ∉ evs0)
    (cls : ClassificationResult) (w : Option WebSearchResult)
    (rec : RecommendationOutput) (n : Nat)
    (hmem : SSEEvent.done (.success cls w rec n) ∈
      (processQueryStreaming.streamGenerate classification ws evs0 gout ctx wsCalls).1) :
    ∃ raw p, gout = .ok raw p ∧
      (validateRecommendation p ctx classification.needs_recommendations).valid = true ∧
      (validateRecommendation p ctx classification.needs_recommendations).data
        = some rec ∧
      n = 1 := by
  rw [processQueryStreaming.streamGenerate.eq_def] at hmem
  cases gout with
  | thrown m =>
    dsimp only at hmem
    rcases List.mem_append.mp hmem with h | h
    · rcases List.mem_append.mp h with h2 | h2
      · exact absurd h2 (hclean _)
      · simp at h2
    · simp at h
  | ok raw p =>
    dsimp only at hmem
    by_cases hv : (validateRecommendation p ctx classification.needs_recommendations).valid
        = true
    · rw [if_pos hv] at hmem
      cases hd : (validateRecommendation p ctx classification.needs_recommendations).data
          with
      | none =>
        rw [hd] at hmem
        dsimp only at hmem
        rcases List.mem_append.mp hmem with h | h
        · rcases List.mem_append.mp h with h2 | h2
          · exact absurd h2 (hclean _)
          · simp at h2
        · simp at h
      | some d =>
        rw [hd] at hmem
        dsimp only at hmem
        rcases List.mem_append.mp hmem with h | h
        · rcases List.mem_append.mp h with h2 | h2
          · exact absurd h2 (hclean _)
          · simp at h2
        · rw [List.mem_singleton] at h
          injection h with h2
          injection h2 with hcls hws hrec hn
          subst hrec
          subst hn
          exact ⟨raw, p, rfl, hv, hd, rfl⟩
    · rw [if_neg hv] at hmem
      rcases List.mem_append.mp hmem with h | h
      · rcases List.mem_append.mp h with h2 | h2
        · exact absurd h2 (hclean _)
        · simp at h2
      · simp at h

end HandaUncle

namespace HandaUncle

/-- Any `done` event carrying a success response that the streaming
orchestrator emits comes from a completed generation whose parsed output
the shared validator accepted; the reported attempt count is 1. -/
theorem processQueryStreaming_done_success (co : ClassifyOutcome) (so : SearchOracle)
    (cache : SearchCache) (now : Nat) (dateStr : String) (gout : GenOutcome)
    (query : String) (ctx : UserFinanceContext)
    (cls : ClassificationResult) (w : Option WebSearchResult)
    (rec : RecommendationOutput) (n : Nat)
    (hmem : SSEEvent.done (.success cls w rec n) ∈
      (processQueryStreaming co so cache now dateStr gout query ctx).1) :
    ∃ raw p, gout = .ok raw p ∧
      (validateRecommendation p ctx (classifyQuery co).needs_recommendations).valid
        = true ∧
      (validateRecommendation p ctx (classifyQuery co).needs_recommendations).data
        = some rec ∧
      n = 1 := by
  simp only [processQueryStreaming] at hmem
  by_cases hc : (classifyQuery co).is_indian_finance = true
  · rw [if_pos hc] at hmem
    by_cases hv : validateUserContext ctx = true
    · rw [if_pos hv] at hmem
      by_cases hnws : (classifyQuery co).needs_web_search = true
      · rw [if_pos hnws] at hmem
        cases hws : performWebSearch so cache now dateStr query with
        | error e =>
          rw [hws] at hmem
          dsimp only at hmem
          simp at hmem
        | ok t =>
          obtain ⟨w2, c2, b2⟩ := t
          rw [hws] at hmem
          dsimp only at hmem
          exact streamGenerate_done_success _ _ _ _ _ _ (by intro r; simp)
            cls w rec n hmem
      · rw [if_neg hnws] at hmem
        dsimp only at hmem
        exact streamGenerate_done_success _ _ _ _ _ _ (by intro r; simp)
          cls w rec n hmem
    · rw [if_neg hv] at hmem
      simp at hmem
  · rw [if_neg hc] at hmem
    simp [List.mem_append] at hmem

/-- When the pipeline reaches generation and the completed streamed output
fails validation, the streaming orchestrator emits the validation error
event, emits no `done` event at all, and has performed exactly one
generation call. -/
theorem processQueryStreaming_invalid (co : ClassifyOutcome) (so : SearchOracle)
    (cache : SearchCache) (now : Nat) (dateStr : String) (raw : String)
    (p : RecommendationOutput) (query : String) (ctx : UserFinanceContext)
    (hc : (classifyQuery co).is_indian_finance = true)
    (hv : validateUserContext ctx = true)
    (hw : (classifyQuery co).needs_web_search = false ∨
      ∃ w c2 b, performWebSearch so cache now dateStr query = .ok (w, c2, b))
    (hval : (validateRecommendation p ctx (classifyQuery co).needs_recommendations).valid
      = false) :
    SSEEvent.errorEv (.error "Response validation failed" "LAYER-4:VALIDATOR") ∈
      (processQueryStreaming co so cache now dateStr (.ok raw p) query ctx).1 ∧
    (∀ r, SSEEvent.done r ∉
      (processQueryStreaming co so cache now dateStr (.ok raw p) query ctx).1) ∧
    (processQueryStreaming co so cache now dateStr (.ok raw p) query ctx).2.genCalls
      = 1 := by
  by_cases hnws : (classifyQuery co).needs_web_search = true
  · have hok : ∃ w c2 b, performWebSearch so cache now dateStr query = .ok (w, c2, b) := by
      rcases hw with hfalse | hok
      · rw [hnws] at hfalse; cases hfalse
      · exact hok
    obtain ⟨w2, c2, b2, hws⟩ := hok
    have hE : processQueryStreaming co so cache now dateStr (.ok raw p) query ctx =
        processQueryStreaming.streamGenerate (classifyQuery co) (some w2)
          [SSEEvent.progress "classification" "Analyzing your query...",
           SSEEvent.classificationEv (classifyQuery co),
           SSEEvent.progress "context" "Reviewing your financial profile...",
           SSEEvent.progress "web_search" "Searching for relevant fund data...",
           SSEEvent.webSearchEv w2.funds.length w2.source_urls.length]
          (.ok raw p) ctx 1 := by
      simp only [processQueryStreaming]
      rw [if_pos hc, if_pos hv, if_pos hnws, hws]
      rfl
    refine ⟨?_, ?_, ?_⟩
    · rw [hE, streamGenerate_invalid _ _ _ _ _ _ _ hval]
      simp
    · intro r
      rw [hE, streamGenerate_invalid _ _ _ _ _ _ _ hval]
      simp
    · rw [hE, streamGenerate_stats]
  · have hE : processQueryStreaming co so cache now dateStr (.ok raw p) query ctx =
        processQueryStreaming.streamGenerate (classifyQuery co) none
          [SSEEvent.progress "classification" "Analyzing your query...",
           SSEEvent.classificationEv (classifyQuery co),
           SSEEvent.progress "context" "Reviewing your financial profile...",
           SSEEvent.progress "web_search_skip" "No web search needed for this query"]
          (.ok raw p) ctx 0 := by
      simp only [processQueryStreaming]
      rw [if_pos hc, if_pos hv, if_neg hnws]
      rfl
    refine ⟨?_, ?_, ?_⟩
    · rw [hE, streamGenerate_invalid _ _ _ _ _ _ _ hval]
      simp
    · intro r
      rw [hE, streamGenerate_invalid _ _ _ _ _ _ _ hval]
      simp
    · rw [hE, streamGenerate_stats]

end HandaUncle

namespace HandaUncle

/-! ## Claims C9 and C10 — streaming validation and single-attempt policy -/

/-- Claim C9: the streaming orchestrator runs the very same
`validateRecommendation` (schema plus business rules, selected by the
`needs_recommendations` flag of the classification) on the completed streamed
output as the non-streaming path runs on its candidates, and it never
delivers a success outcome whose artifact fails that validation: (a) any
`done` success event it emits carries an artifact the shared validator
accepted for the streamed candidate; (b) when the pipeline reaches
generation and validation of the completed output fails, the outcome is
the validation `error` event and no `done` event is delivered. -/
theorem claim9_streaming_same_validator (co : ClassifyOutcome) (so : SearchOracle)
    (cache : SearchCache) (now : Nat) (dateStr : String) (gout : GenOutcome)
    (query : String) (ctx : UserFinanceContext) :
    (∀ cls w rec n, SSEEvent.done (.success cls w rec n) ∈
        (processQueryStreaming co so cache now dateStr gout query ctx).1 →
      ∃ raw p, gout = .ok raw p ∧
        (validateRecommendation p ctx (classifyQuery co).needs_recommendations).valid
          = true ∧
        (validateRecommendation p ctx (classifyQuery co).needs_recommendations).data
          = some rec) ∧
    (∀ raw p, gout = .ok raw p →
      (classifyQuery co).is_indian_finance = true →
      validateUserContext ctx = true →
      ((classifyQuery co).needs_web_search = false ∨
        ∃ w c2 b, performWebSearch so cache now dateStr query = .ok (w, c2, b)) →
      (validateRecommendation p ctx (classifyQuery co).needs_recommendations).valid
        = false →
      SSEEvent.errorEv (.error "Response validation failed" "LAYER-4:VALIDATOR") ∈
        (processQueryStreaming co so cache now dateStr gout query ctx).1 ∧
      (∀ r, SSEEvent.done r ∉
        (processQueryStreaming co so cache now dateStr gout query ctx).1)) := by
  constructor
  · intro cls w rec n hmem
    obtain ⟨raw, p, hg, hvd, hdata, -⟩ :=
      processQueryStreaming_done_success co so cache now dateStr gout query ctx
        cls w rec n hmem
    exact ⟨raw, p, hg, hvd, hdata⟩
  · intro raw p hg hc hv hw hval
    subst hg
    obtain ⟨h1, h2, -⟩ :=
      processQueryStreaming_invalid co so cache now dateStr raw p query ctx hc hv hw hval
    exact ⟨h1, h2⟩

/-- Claim C10: the streaming pipeline performs at most one generation
attempt per request — there is no repair loop.  (a) The generation-call
count of any streaming run is at most 1; (b) every streaming success
reports `validation_attempts = 1`; (c) if the completed streamed candidate
fails validation, the validation error event is emitted immediately with
no regeneration (the single call remains the only one) and no `done`
event is delivered. -/
theorem claim10_streaming_single_generation (co : ClassifyOutcome) (so : SearchOracle)
    (cache : SearchCache) (now : Nat) (dateStr : String) (gout : GenOutcome)
    (query : String) (ctx : UserFinanceContext) :
    (processQueryStreaming co so cache now dateStr gout query ctx).2.genCalls ≤ 1 ∧
    (∀ cls w rec n, SSEEvent.done (.success cls w rec n) ∈
        (processQueryStreaming co so cache now dateStr gout query ctx).1 → n = 1) ∧
    (∀ raw p, gout = .ok raw p →
      (classifyQuery co).is_indian_finance = true →
      validateUserContext ctx = true →
      ((classifyQuery co).needs_web_search = false ∨
        ∃ w c2 b, performWebSearch so cache now dateStr query = .ok (w, c2, b)) →
      (validateRecommendation p ctx (classifyQuery co).needs_recommendations).valid
        = false →
      SSEEvent.errorEv (.error "Response validation failed" "LAYER-4:VALIDATOR") ∈
        (processQueryStreaming co so cache now dateStr gout query ctx).1 ∧
      (∀ r, SSEEvent.done r ∉
        (processQueryStreaming co so cache now dateStr gout query ctx).1) ∧
      (processQueryStreaming co so cache now dateStr gout query ctx).2.genCalls = 1) := by
  refine ⟨?_, ?_, ?_⟩
  · simp only [processQueryStreaming]
    by_cases hc : (classifyQuery co).is_indian_finance = true
    · rw [if_pos hc]
      by_cases hv : validateUserContext ctx = true
      · rw [if_pos hv]
        by_cases hnws : (classifyQuery co).needs_web_search = true
        · rw [if_pos hnws]
          cases hws : performWebSearch so cache now dateStr query with
          | error e => simp
          | ok t =>
            obtain ⟨w2, c2, b2⟩ := t
            dsimp only
            rw [streamGenerate_stats]
        · rw [if_neg hnws]
          dsimp only
          rw [streamGenerate_stats]
      · rw [if_neg hv]
        simp
    · rw [if_neg hc]
      simp
  · intro cls w rec n hmem
    obtain ⟨raw, p, -, -, -, hn⟩ :=
      processQueryStreaming_done_success co so cache now dateStr gout query ctx
        cls w rec n hmem
    exact hn
  · intro raw p hg hc hv hw hval
    subst hg
    exact processQueryStreaming_invalid co so cache now dateStr raw p query ctx hc hv hw hval

unseal Rat.add Rat.sub Rat.mul in
/-- Claim C9 witness: a concrete streamed candidate with a zero-amount BUY
fails the shared validator, and the streaming run emits the validation
error event. -/
theorem claim9_witness :
    SSEEvent.errorEv (.error "Response validation failed" "LAYER-4:VALIDATOR") ∈
      (processQueryStreaming (.ok inDomainClassification) offlineSearchOracle [] 0
        "May 2025" (.ok "raw" buyZeroCandidate) "which fund should I buy"
        DEFAULT_USER_CONTEXT).1 :=
  ((claim9_streaming_same_validator (.ok inDomainClassification) offlineSearchOracle [] 0
      "May 2025" (.ok "raw" buyZeroCandidate) "which fund should I buy"
      DEFAULT_USER_CONTEXT).2
    "raw" buyZeroCandidate rfl rfl (by decide) (Or.inl rfl) (by decide)).1

unseal Rat.add Rat.sub Rat.mul in
/-- Claim C10 witness: the same failing streaming run performed exactly
one generation call. -/
theorem claim10_witness :
    (processQueryStreaming (.ok inDomainClassification) offlineSearchOracle [] 0
      "May 2025" (.ok "raw" buyZeroCandidate) "which fund should I buy"
      DEFAULT_USER_CONTEXT).2.genCalls = 1 :=
  ((claim10_streaming_single_generation (.ok inDomainClassification) offlineSearchOracle
      [] 0 "May 2025" (.ok "raw" buyZeroCandidate) "which fund should I buy"
      DEFAULT_USER_CONTEXT).2.2
    "raw" buyZeroCandidate rfl rfl (by decide) (Or.inl rfl) (by decide)).2.2

end HandaUncle
